import Mathlib

/-!
# Verification of the liquidation counter-trading bot's position lifecycle

Shallow embedding of the core of `liq-bot` (files `src/core/executor.js`,
`src/core/monitor.js`, `src/core/instruments.js`) in Lean 4.

Modelling conventions:
* JS numbers are modelled by `ℚ` (the arithmetic in these modules is exact
  decimal arithmetic on prices/quantities; float rounding is out of scope).
* Timestamps (`Date.now()`, `createdTime`, `openTime`) are `ℤ` milliseconds.
* A JS value used in boolean position (`if (x)`, `x || y`) where `x` is a
  number treats `0` as false; the helper `jsNum` converts a number to
  `Option ℚ` with `0 ↦ none`, mirroring `parseFloat(...) || null`.
* The cooperative scheduler suspends only at `await`; the code up to the
  first `await` of an invocation runs atomically.  `executeTrade` is split
  at its first suspension point into a synchronous head (`executeTradeSyncHead`,
  lines 252–304 of executor.js) and the remainder (`executeTradeRest`,
  the `try`/`finally` body), so that interleavings of two same-tick events
  can be stated faithfully.
* Remote I/O (orders, position queries, ATR, VWAP, orderbook, trading-stop
  calls) is modelled by an explicit environment record holding each call's
  result; a thrown exception from an un-`catch`ed `await` is a Boolean flag
  routed to the enclosing `try/catch`.
-/

/-- JS truthiness coercion for numbers: `parseFloat(x) || null`. -/
def jsNum (q : ℚ) : Option ℚ := if q = 0 then none else some q

/-- Instrument metadata, from `InstrumentCache.load` (instruments.js). -/
structure Instrument where
  tickSize : ℚ
  lotSize : ℚ
  minQty : ℚ
  maxLeverage : ℚ
  isPreListing : Bool
  status : String
deriving Repr, DecidableEq

/-- `InstrumentCache.roundQty`: `Math.floor(qty / step) * step`
(the subsequent `toFixed` only strips float noise, a no-op over `ℚ`). -/
def roundQty (inst : Instrument) (qty : ℚ) : ℚ :=
  (⌊qty / inst.lotSize⌋ : ℤ) * inst.lotSize

/-- `InstrumentCache.roundPrice`: `Math.round(price / tick) * tick`;
JS `Math.round` is floor of `x + 1/2` (half away from zero towards +∞). -/
def roundPrice (inst : Instrument) (price : ℚ) : ℚ :=
  (⌊price / inst.tickSize + 1/2⌋ : ℤ) * inst.tickSize

/-- `InstrumentCache.isBlocked`. -/
def isBlocked (inst : Instrument) : Bool :=
  inst.isPreListing || inst.status ≠ "Trading"

/-- Configuration slice used by executor/monitor (config.js). -/
structure Config where
  positionSizeUsd : ℚ
  takeProfitPct : ℚ
  totalRiskPct : ℚ
  maxPositions : ℕ
  leverage : ℚ
  minPositionPct : ℚ
  minTpPct : ℚ
  tpAtrMultiplier : ℚ
  slAtrMultiplier : ℚ
  trailingAtrMultiplier : ℚ
  dcaVwapSdMultiplier : ℚ
  entryOrderType : String
  tpOrderType : String
deriving Repr, DecidableEq

/-- DCA split ratios (executor.js line 31): 4 entries totalling 100%. -/
def DCA_SPLITS : List ℚ := [1/10, 2/10, 3/10, 4/10]

/-- A parsed liquidation event as consumed by `executeTrade`. -/
structure LiqEvent where
  symbol : String
  side : String
  price : ℚ
  usdValue : ℚ
deriving Repr, DecidableEq

/-- The executor's in-memory position record (fields that carry state;
pure logging/latency fields are omitted). -/
structure Position where
  symbol : String
  side : String
  entryPrice : ℚ
  qty : ℚ
  tpPrice : Option ℚ
  slPrice : Option ℚ
  orderId : Option String
  openTime : ℤ
  trailingStop : Option ℚ
  trailActivePrice : Option ℚ
  tpMethod : String
  dcaLevel : ℕ
  totalBudget : ℚ
  lastEntryPrice : ℚ
deriving Repr, DecidableEq

/-- Association-list lookup, modelling `Map.get` (keys are unique). -/
def lookupPos : List (String × Position) → String → Option Position
  | [], _ => none
  | q :: rest, s => if q.1 = s then some q.2 else lookupPos rest s

/-- `Map.set`: replace the binding if present, else append at the end
(JS `Map` preserves insertion order). -/
def setPos : List (String × Position) → String → Position → List (String × Position)
  | [], s, p => [(s, p)]
  | q :: rest, s, p => if q.1 = s then (s, p) :: rest else q :: setPos rest s p

/-- `Map.delete`. -/
def delPos (m : List (String × Position)) (s : String) : List (String × Position) :=
  m.filter (fun q => q.1 ≠ s)

/-- Executor module state: `activePositions`, `pendingSymbols`,
`leverageSet`, `initialBalance` (executor.js module-level mutables). -/
structure ExecState where
  activePositions : List (String × Position)
  pendingSymbols : List String
  leverageSet : List String
  initialBalance : ℚ
deriving Repr, DecidableEq

/-- `getMaxLossPerPosition` (executor.js lines 108–111): total risk budget
divided across `positionCount` open positions. -/
def getMaxLossPerPosition (cfg : Config) (balance : ℚ) (positionCount : ℕ) : ℚ :=
  (balance * (cfg.totalRiskPct / 100)) / positionCount

/-- The stop-loss offset clamp shared by all four SL-computing paths
(executor.js 427–436, 863–871; tightenAllSLs 127–129; monitor.js 235–242):
`if (tickSize && slOffset < tickSize) slOffset = tickSize;`
`if (slOffset > 0.9 * refPrice) slOffset = 0.9 * refPrice`. -/
def clampSlOffset (tickSize refPrice raw : ℚ) : ℚ :=
  let o := if tickSize ≠ 0 ∧ raw < tickSize then tickSize else raw
  let maxO := refPrice * (9/10)
  if o > maxO then maxO else o

/-- Raw SL offset of the fresh-entry path (executor.js 423–436): shared
risk over full-budget quantity, then clamped. -/
def entrySlOffset (cfg : Config) (inst : Instrument) (balance : ℚ)
    (positionCount : ℕ) (totalBudget price : ℚ) : ℚ :=
  let maxLossUsd := getMaxLossPerPosition cfg balance positionCount
  let totalExpectedQty := roundQty inst (totalBudget / price)
  clampSlOffset inst.tickSize price (maxLossUsd / totalExpectedQty)

/-- Raw SL offset of the DCA path (executor.js 860–871), computed against
the re-fetched blended average price. -/
def dcaSlOffset (cfg : Config) (inst : Instrument) (balance : ℚ)
    (positionCount : ℕ) (totalBudget newAvgPrice : ℚ) : ℚ :=
  let maxLossUsd := getMaxLossPerPosition cfg balance positionCount
  let totalExpectedQty := roundQty inst (totalBudget / newAvgPrice)
  clampSlOffset inst.tickSize newAvgPrice (maxLossUsd / totalExpectedQty)

/-- SL offset of `tightenAllSLs` for one position (executor.js 123–129). -/
def tightenSlOffset (cfg : Config) (inst : Instrument) (balance : ℚ)
    (positionCount : ℕ) (pos : Position) : ℚ :=
  let maxLossUsd := getMaxLossPerPosition cfg balance positionCount
  let expectedQty := if pos.totalBudget > 0
    then roundQty inst (pos.totalBudget / pos.entryPrice) else pos.qty
  clampSlOffset inst.tickSize pos.entryPrice (maxLossUsd / expectedQty)

/-- SL offset of `ensureProtectionOnPosition` (monitor.js 218–242):
ATR-based when available, risk-budget fallback, then the same clamp. -/
def protectionSlOffset (cfg : Config) (inst : Instrument) (atr : Option ℚ)
    (balance : ℚ) (positionCount : ℕ) (entryPrice qty : ℚ) : ℚ :=
  let raw := match atr with
    | some a => if a > 0 then a * cfg.slAtrMultiplier
        else (getMaxLossPerPosition cfg balance positionCount) / qty
    | none => (getMaxLossPerPosition cfg balance positionCount) / qty
  clampSlOffset inst.tickSize entryPrice raw

example : clampSlOffset (1/100) 100 (5/1000) = 1/100 := by norm_num [clampSlOffset]
example : clampSlOffset 1 1 2 = 9/10 := by norm_num [clampSlOffset]

/-- JS truthiness of a number-or-null value (`0` and `null` are falsy). -/
def jsTruthy (o : Option ℚ) : Bool :=
  match o with
  | some v => v ≠ 0
  | none => false

/-- JS `a || b` on number-or-null values. -/
def jsOr (a b : Option ℚ) : Option ℚ :=
  match a with
  | some v => if v = 0 then b else some v
  | none => b

/-- Terminal per-invocation outcome of `executeTrade`, matching the
`logTrade` statuses: SKIPPED / FILLED / FAILED / ERROR. -/
inductive Outcome where
  | skipped (reason : String)
  | filled (pos : Position)
  | failed (reason : String)
  | errored (reason : String)
deriving Repr, DecidableEq

/-- Results of all remote calls an `executeTrade`/`executeDCA` invocation
can make (the cooperative scheduler suspends exactly at these). -/
structure Env where
  /-- `instrumentCache.get` (the cache is read-only during an invocation). -/
  insts : String → Option Instrument
  /-- `isLowVolume(symbol)`. -/
  lowVolume : Bool
  /-- `getATR(symbol)`: `none` models both `null` and a thrown fetch error
  (both leave `atrValue` null). -/
  atr : Option ℚ
  /-- `getVWAP(symbol)` as `(vwap, sd)`; `none` models `.catch(() => null)`. -/
  vwap : Option (ℚ × ℚ)
  /-- Best bid/ask for the Limit path; `none` models orderbook error. -/
  orderbookPrice : Option ℚ
  /-- `orderResult.retCode` of the placed order. -/
  orderRetCode : ℤ
  /-- The awaited order call threw (routed to the outer `catch`). -/
  orderThrows : Bool
  /-- `getOrderDetail` status after the PostOnly settle wait:
  `some true` = Filled, `some false` = any other status,
  `none` = status check failed/threw (caught; treated as filled). -/
  orderStatusFilled : Option Bool
  /-- `getPositions` re-read after fill: `(avgPrice, size)` of this symbol's
  position, `none` when absent or the call failed. -/
  fillPosition : Option (ℚ × ℚ)
  /-- `orderResult.result.orderId`. -/
  orderId : String
  /-- `Date.now()` at position creation. -/
  now : ℤ
  /-- Per-symbol success of the `setTradingStop` calls inside
  `tightenAllSLs` (`false` = non-zero retCode or thrown). -/
  tightenOk : String → Bool

/-- One loop iteration of `tightenAllSLs` (executor.js 116–146): recompute
the position's SL at the new shared-risk share and resubmit when it
differs from the stored one (`ok` = the `setTradingStop` call succeeded). -/
def tightenOne (cfg : Config) (insts : String → Option Instrument)
    (ok : String → Bool) (balance : ℚ) (positionCount : ℕ)
    (q : String × Position) : String × Position :=
  match insts q.1 with
  | none => q
  | some inst =>
    let pos := q.2
    let slOffset := tightenSlOffset cfg inst balance positionCount pos
    let newSL := if pos.side = "Buy" then roundPrice inst (pos.entryPrice - slOffset)
                 else roundPrice inst (pos.entryPrice + slOffset)
    if pos.slPrice = some newSL then q
    else if ok q.1 then (q.1, { pos with slPrice := some newSL }) else q

/-- `tightenAllSLs` (executor.js 113–147): recompute every open position's
SL against the per-position risk share and resubmit when changed.
(In the source this runs fire-and-forget; its ledger mutations are applied
here as a single state transform.) -/
def tightenAllSLs (cfg : Config) (insts : String → Option Instrument)
    (ok : String → Bool) (balance : ℚ) (positionCount : ℕ)
    (m : List (String × Position)) : List (String × Position) :=
  m.map (tightenOne cfg insts ok balance positionCount)

/-- Outcome of the order-placement block shared (structurally identical)
between the fresh-entry path (executor.js 442–547) and the DCA path
(748–839). -/
inductive OrderOut where
  | placed
  | limitRejected
  | limitUnfilled
  | marketFailed
  | threw
deriving Repr, DecidableEq

/-- Order placement: Limit path places PostOnly at the book price (skipping
on rejection or non-fill), falling back to market when the book is
unavailable; market-path rejection is a FAILED outcome (line 543). -/
def placeEntryOrder (cfg : Config) (env : Env) : OrderOut :=
  if env.orderThrows then .threw
  else if cfg.entryOrderType = "Limit" then
    match env.orderbookPrice with
    | none => if env.orderRetCode = 0 then .placed else .marketFailed
    | some _ =>
      if env.orderRetCode ≠ 0 then .limitRejected
      else match env.orderStatusFilled with
        | some false => .limitUnfilled
        | _ => .placed
  else if env.orderRetCode = 0 then .placed else .marketFailed

/-- The body of `executeTrade`'s `try` block for a fresh entry
(executor.js 306–705), with the symbol lock already held. -/
def executeTradeBody (cfg : Config) (env : Env) (st : ExecState) (ev : LiqEvent) :
    Outcome × ExecState :=
  match env.insts ev.symbol with
  | none => (.skipped "Unknown instrument", st)
  | some inst =>
    if isBlocked inst then (.skipped "Pre-listing/blocked coin", st)
    else if env.lowVolume then (.skipped "Low volume", st)
    else if st.initialBalance ≤ 0 then (.skipped "No account balance loaded", st)
    else
      let tradeSide := if ev.side = "Buy" then "Buy" else "Sell"
      let minNotional := st.initialBalance * (cfg.minPositionPct / 100)
      let configNotional := cfg.positionSizeUsd * cfg.leverage
      let totalBudget := max configNotional minNotional
      let notional := totalBudget * (DCA_SPLITS.getD 0 0)
      let qty := roundQty inst (notional / ev.price)
      if qty < inst.minQty then (.skipped "Qty below minimum", st)
      else
        let st1 : ExecState :=
          { st with leverageSet :=
              if ev.symbol ∈ st.leverageSet then st.leverageSet
              else ev.symbol :: st.leverageSet }
        -- Trailing distance from ATR (lines 381–406); the pre-fill TP is
        -- recomputed from the fill price below and never survives.
        let trailingStopDist : Option ℚ :=
          match env.atr with
          | some a =>
            if a > 0 then
              let t := roundPrice inst (a * cfg.trailingAtrMultiplier)
              if t = 0 then (if inst.tickSize ≠ 0 then some inst.tickSize else none)
              else some t
            else none
          | none => none
        let tpMethod :=
          match env.atr with
          | some a => if a > 0 then "ATR" else "fixed"
          | none => "fixed"
        let slOffset := entrySlOffset cfg inst st1.initialBalance
          (st1.activePositions.length + 1) totalBudget ev.price
        match placeEntryOrder cfg env with
        | .threw => (.errored "order error", st1)
        | .limitRejected => (.skipped "Limit rejected", st1)
        | .limitUnfilled => (.skipped "Limit not filled", st1)
        | .marketFailed => (.failed "order failed", st1)
        | .placed =>
          let fillPrice := (env.fillPosition.map Prod.fst).getD ev.price
          let slPrice2 := if tradeSide = "Buy" then roundPrice inst (fillPrice - slOffset)
                          else roundPrice inst (fillPrice + slOffset)
          -- Lines 573–600: trailing present ⇒ no fixed TP; otherwise fixed
          -- TP recomputed from the fill price, widened to the min-profit floor.
          let tpPrice : Option ℚ :=
            if jsTruthy trailingStopDist then none
            else
              let tp0 :=
                match env.atr with
                | some a =>
                  if a > 0 then
                    (if tradeSide = "Buy" then roundPrice inst (fillPrice + a * cfg.tpAtrMultiplier)
                     else roundPrice inst (fillPrice - a * cfg.tpAtrMultiplier))
                  else
                    (if tradeSide = "Buy" then roundPrice inst (fillPrice * (1 + cfg.takeProfitPct / 100))
                     else roundPrice inst (fillPrice * (1 - cfg.takeProfitPct / 100)))
                | none =>
                  (if tradeSide = "Buy" then roundPrice inst (fillPrice * (1 + cfg.takeProfitPct / 100))
                   else roundPrice inst (fillPrice * (1 - cfg.takeProfitPct / 100)))
              let minTpOffset2 := (notional * (cfg.minTpPct / 100)) / qty
              if |tp0 - fillPrice| < minTpOffset2 then
                (if tradeSide = "Buy" then some (roundPrice inst (fillPrice + minTpOffset2))
                 else some (roundPrice inst (fillPrice - minTpOffset2)))
              else some tp0
          let trailActivePrice : Option ℚ :=
            if jsTruthy trailingStopDist then
              match trailingStopDist with
              | some t =>
                let feeBuffer := roundPrice inst (fillPrice * (15/10000))
                some (if tradeSide = "Buy" then roundPrice inst (fillPrice + t + feeBuffer)
                      else roundPrice inst (fillPrice - t - feeBuffer))
              | none => none
            else none
          let position : Position :=
            { symbol := ev.symbol
              side := tradeSide
              entryPrice := fillPrice
              qty := qty
              tpPrice := tpPrice
              slPrice := some slPrice2
              orderId := some env.orderId
              openTime := env.now
              trailingStop := trailingStopDist
              trailActivePrice := trailActivePrice
              tpMethod := tpMethod
              dcaLevel := 0
              totalBudget := totalBudget
              lastEntryPrice := fillPrice }
          let aps := setPos st1.activePositions ev.symbol position
          let aps2 := if 1 < aps.length then
              tightenAllSLs cfg env.insts env.tightenOk st1.initialBalance aps.length aps
            else aps
          (.filled position, { st1 with activePositions := aps2 })

/-- `executeTrade`'s `try`/`finally` remainder: the body followed by the
guaranteed `pendingSymbols.delete(symbol)` on every exit path. -/
def executeTradeRest (cfg : Config) (env : Env) (st : ExecState) (ev : LiqEvent) :
    Outcome × ExecState :=
  let r := executeTradeBody cfg env st ev
  (r.1, { r.2 with pendingSymbols := r.2.pendingSymbols.erase ev.symbol })

/-- Output of the synchronous head of `executeTrade` (lines 252–304): the
code from entry up to and including the symbol-lock acquisition runs with
no intervening suspension point. -/
inductive SyncHeadOut where
  | skip (reason : String)
  | dcaCheck (pos : Position)
  | locked
deriving Repr, DecidableEq

/-- Synchronous head of `executeTrade`: capacity gate, per-symbol lock
gate, DCA-branch dispatch, and (fresh path) synchronous lock acquisition. -/
def executeTradeSyncHead (cfg : Config) (st : ExecState) (ev : LiqEvent) :
    SyncHeadOut × ExecState :=
  if cfg.maxPositions ≤ st.activePositions.length + st.pendingSymbols.length then
    (.skip "Max positions reached", st)
  else if ev.symbol ∈ st.pendingSymbols then
    (.skip "Trade pending on symbol", st)
  else
    match lookupPos st.activePositions ev.symbol with
    | some pos =>
      if DCA_SPLITS.length - 1 ≤ pos.dcaLevel then (.skip "DCA fully filled", st)
      else (.dcaCheck pos, st)
    | none => (.locked, { st with pendingSymbols := ev.symbol :: st.pendingSymbols })

/-- Body of `executeDCA`'s `try` block (executor.js 724–922), with the
symbol lock already held. -/
def executeDCABody (cfg : Config) (env : Env) (st : ExecState) (ev : LiqEvent)
    (pos : Position) : Outcome × ExecState :=
  let nextLevel := pos.dcaLevel + 1
  match env.insts ev.symbol with
  | none => (.skipped "DCA: Unknown instrument", st)
  | some inst =>
    if pos.totalBudget ≤ 0 then (.skipped "DCA: No budget info", st)
    else
      let notional := pos.totalBudget * (DCA_SPLITS.getD nextLevel 0)
      let qty := roundQty inst (notional / ev.price)
      if qty < inst.minQty then (.skipped "DCA: Qty below minimum", st)
      else
        match placeEntryOrder cfg env with
        | .threw => (.errored "DCA: order error", st)
        | .limitRejected => (.skipped "DCA limit rejected", st)
        | .limitUnfilled => (.skipped "DCA limit not filled", st)
        | .marketFailed => (.failed "DCA: order failed", st)
        | .placed =>
          let newAvgPrice := (env.fillPosition.map Prod.fst).getD ev.price
          let newTotalQty := (env.fillPosition.map Prod.snd).getD (pos.qty + qty)
          let slOffset := dcaSlOffset cfg inst st.initialBalance
            st.activePositions.length pos.totalBudget newAvgPrice
          let newSL := if pos.side = "Buy" then roundPrice inst (newAvgPrice - slOffset)
                       else roundPrice inst (newAvgPrice + slOffset)
          let newTrailActive : Option ℚ :=
            if jsTruthy pos.trailingStop then
              match pos.trailingStop with
              | some t =>
                let feeBuffer := roundPrice inst (newAvgPrice * (15/10000))
                some (if pos.side = "Buy" then roundPrice inst (newAvgPrice + t + feeBuffer)
                      else roundPrice inst (newAvgPrice - t - feeBuffer))
              | none => none
            else none
          let pos' : Position :=
            { pos with
              entryPrice := newAvgPrice
              qty := newTotalQty
              slPrice := some newSL
              trailActivePrice := jsOr newTrailActive pos.trailActivePrice
              dcaLevel := nextLevel
              lastEntryPrice := ev.price }
          (.filled pos', { st with activePositions := setPos st.activePositions ev.symbol pos' })

/-- `executeDCA` (executor.js 716–931): lock, body, `finally` unlock. -/
def executeDCA (cfg : Config) (env : Env) (st : ExecState) (ev : LiqEvent)
    (pos : Position) : Outcome × ExecState :=
  let st0 : ExecState := { st with pendingSymbols := ev.symbol :: st.pendingSymbols }
  let r := executeDCABody cfg env st0 ev pos
  (r.1, { r.2 with pendingSymbols := r.2.pendingSymbols.erase ev.symbol })

/-- DCA gate of `executeTrade` (lines 272–300): VWAP-band price-improvement
check (fallback: simple improvement vs. the last trigger price), run
*before* the lock is acquired; then `executeDCA`. -/
def executeTradeDcaGate (cfg : Config) (env : Env) (st : ExecState) (ev : LiqEvent)
    (pos : Position) : Outcome × ExecState :=
  match env.vwap with
  | some vs =>
    let lowerBand := vs.1 - vs.2 * cfg.dcaVwapSdMultiplier
    let upperBand := vs.1 + vs.2 * cfg.dcaVwapSdMultiplier
    let priceImproved := if pos.side = "Buy" then ev.price ≤ lowerBand
                         else upperBand ≤ ev.price
    if priceImproved then executeDCA cfg env st ev pos
    else (.skipped "DCA: price not at VWAP band", st)
  | none =>
    let lastEntry := if pos.lastEntryPrice = 0 then pos.entryPrice else pos.lastEntryPrice
    let priceImproved := if pos.side = "Buy" then ev.price < lastEntry
                         else lastEntry < ev.price
    if priceImproved then executeDCA cfg env st ev pos
    else (.skipped "DCA price not improved", st)

/-- Full `executeTrade` for one invocation run to completion. -/
def executeTrade (cfg : Config) (env : Env) (st : ExecState) (ev : LiqEvent) :
    Outcome × ExecState :=
  match executeTradeSyncHead cfg st ev with
  | (.skip r, st') => (.skipped r, st')
  | (.dcaCheck pos, st') => executeTradeDcaGate cfg env st' ev pos
  | (.locked, st') => executeTradeRest cfg env st' ev

/-! ## Monitor / Reconciliation Engine (monitor.js) -/

/-- A closed-PnL record as returned by the venue's `getClosedPnl`. -/
structure ClosedPnlRec where
  symbol : String
  orderId : String
  side : String
  avgEntryPrice : ℚ
  avgExitPrice : ℚ
  qty : ℚ
  closedPnl : ℚ
  createdTime : ℤ
deriving Repr, DecidableEq

/-- One execution record from `getExecutionList`. -/
structure ExecFill where
  execFee : ℚ
  isMaker : Bool
deriving Repr, DecidableEq

/-- Tier 1 (monitor.js 59–71): entry price within 0.5% and quantity within
1% (the quantity check is skipped — `qtyDiff = 0` — when either quantity
is not positive). -/
def tier1Match (trackedEntry trackedQty : ℚ) (r : ClosedPnlRec) : Bool :=
  if 0 < trackedEntry ∧ 0 < r.avgEntryPrice then
    let priceDiff := |r.avgEntryPrice - trackedEntry| / trackedEntry
    let qtyDiff := if 0 < trackedQty ∧ 0 < r.qty then |r.qty - trackedQty| / trackedQty else 0
    decide (priceDiff < 5/1000 ∧ qtyDiff < 1/100)
  else false

/-- Tier 2 (monitor.js 74–88): entry price within 5% and quantity within
20% (`qtyDiff = 1`, i.e. no match, when either quantity is not positive). -/
def tier2Match (trackedEntry trackedQty : ℚ) (r : ClosedPnlRec) : Bool :=
  if 0 < trackedEntry ∧ 0 < r.avgEntryPrice then
    let priceDiff := |r.avgEntryPrice - trackedEntry| / trackedEntry
    let qtyDiff := if 0 < trackedQty ∧ 0 < r.qty then |r.qty - trackedQty| / trackedQty else 1
    decide (priceDiff < 5/100 ∧ qtyDiff < 2/10)
  else false

/-- Candidate filter (monitor.js 47–51): drop consumed order ids; unless
the time filter is relaxed, drop records created before the position's
open time. -/
def candidateFilter (used : List String) (openTime : ℤ) (relax : Bool)
    (recs : List ClosedPnlRec) : List ClosedPnlRec :=
  recs.filter (fun r =>
    ¬ used.contains r.orderId ∧ (relax ∨ ¬ 0 < openTime ∨ ¬ r.createdTime < openTime))

/-- Tiered first-match-wins selection over the filtered candidates
(monitor.js 56–105); returns the matched record and its tier. -/
def selectMatch (trackedEntry trackedQty : ℚ) (trackedSide : Option String)
    (candidates : List ClosedPnlRec) : Option (ClosedPnlRec × ℕ) :=
  match candidates.find? (tier1Match trackedEntry trackedQty) with
  | some r => some (r, 1)
  | none =>
    match candidates.find? (tier2Match trackedEntry trackedQty) with
    | some r => some (r, 2)
    | none =>
      match trackedSide with
      | some s =>
        match candidates.find? (fun r => r.side = s) with
        | some r => some (r, 3)
        | none => candidates.head?.map (fun r => (r, 4))
      | none => candidates.head?.map (fun r => (r, 4))

/-- `maxRetries` of the closed-PnL match loop (monitor.js line 31). -/
def maxRetries : ℕ := 6

/-- `retryDelayMs` between match attempts (monitor.js line 32). -/
def retryDelayMs : ℕ := 3000

/-- The last two attempts drop the open-time filter (monitor.js line 45). -/
def relaxTimeFilter (attempt : ℕ) : Bool := maxRetries - 2 ≤ attempt

/-- One match attempt (monitor.js 40–117): `none` when the venue call
failed, returned nothing, or no candidate passed the filter. -/
def closePnlAttempt (used : List String) (trackedEntry trackedQty : ℚ)
    (trackedSide : Option String) (openTime : ℤ) (attempt : ℕ)
    (remote : Option (List ClosedPnlRec)) : Option (ClosedPnlRec × ℕ) :=
  match remote with
  | none => none
  | some recs =>
    if recs.isEmpty then none
    else
      let candidates := candidateFilter used openTime (relaxTimeFilter attempt) recs
      if candidates.isEmpty then none
      else selectMatch trackedEntry trackedQty trackedSide candidates

/-- A loop that stops at the first `some` (the `break` of the retry loop). -/
def firstSome {α β : Type} (f : β → Option α) : List β → Option α
  | [] => none
  | b :: rest =>
    match f b with
    | some x => some x
    | none => firstSome f rest

/-- The full retry loop: first successful attempt wins; returns the matched
record, its tier and the attempt index. -/
def matchClosedPnl (used : List String) (trackedEntry trackedQty : ℚ)
    (trackedSide : Option String) (openTime : ℤ)
    (remotes : ℕ → Option (List ClosedPnlRec)) : Option (ClosedPnlRec × ℕ × ℕ) :=
  firstSome
    (fun attempt =>
      (closePnlAttempt used trackedEntry trackedQty trackedSide openTime attempt
        (remotes attempt)).map (fun rt => (rt.1, rt.2, attempt)))
    (List.range maxRetries)

/-- The `data` record assembled by `fetchBybitCloseData`. -/
structure CloseData where
  pnl : ℚ
  grossPnl : ℚ
  feesOpen : ℚ
  feesClose : ℚ
  feesTotal : ℚ
  entryIsMaker : Bool
  exitIsMaker : Bool
  avgEntryPrice : ℚ
  avgExitPrice : ℚ
  closeOrderId : Option String
  bybitClosedPnl : Option ℚ
deriving Repr, DecidableEq

/-- Remote responses consumed by one `fetchBybitCloseData` invocation. -/
structure CloseEnv where
  /-- `getClosedPnl(symbol, 50)` per attempt; `none` = error/empty. -/
  closedPnlAttempts : ℕ → Option (List ClosedPnlRec)
  /-- `getExecutionList(symbol, entryOrderId)`; `none` = error/empty. -/
  entryExecs : Option (List ExecFill)
  /-- `getExecutionList(symbol, closeOrderId)`, keyed by close order id. -/
  closeExecs : String → Option (List ExecFill)

/-- `fetchBybitCloseData` (monitor.js 17–191): tier-match a closed-PnL
record, mark its id consumed, fetch per-leg execution fees, and settle the
PnL (venue value authoritative when nonzero, locally computed fallback).
Returns the close data and the updated consumed-id set. -/
def fetchBybitCloseData (cenv : CloseEnv) (used : List String)
    (entryOrderId : Option String) (trackedEntryPrice trackedQty : ℚ)
    (trackedSide : Option String) (openTime : ℤ) : CloseData × List String :=
  let matched := matchClosedPnl used trackedEntryPrice trackedQty trackedSide openTime
    cenv.closedPnlAttempts
  let avgEntryPrice := match matched with | some m => m.1.avgEntryPrice | none => 0
  let avgExitPrice := match matched with | some m => m.1.avgExitPrice | none => 0
  let bybitClosedPnl : Option ℚ := matched.map (fun m => m.1.closedPnl)
  let closeOrderId : Option String := matched.map (fun m => m.1.orderId)
  let used' := match closeOrderId with
    | some cid => cid :: used
    | none => used
  let feesOpen := match entryOrderId with
    | some _ =>
      match cenv.entryExecs with
      | some l => (l.map (fun e => e.execFee)).sum
      | none => 0
    | none => 0
  let entryIsMaker := match entryOrderId with
    | some _ =>
      match cenv.entryExecs with
      | some l => (l.head?.map (fun e => e.isMaker)).getD false
      | none => false
    | none => false
  let feesClose := match closeOrderId with
    | some cid =>
      match cenv.closeExecs cid with
      | some l => (l.map (fun e => e.execFee)).sum
      | none => 0
    | none => 0
  let exitIsMaker := match closeOrderId with
    | some cid =>
      match cenv.closeExecs cid with
      | some l => (l.head?.map (fun e => e.isMaker)).getD false
      | none => false
    | none => false
  let feesTotal := feesOpen + feesClose
  -- PnL settlement (monitor.js 161–186)
  let entryPrice := if trackedEntryPrice = 0 then avgEntryPrice else trackedEntryPrice
  let exitPrice := avgExitPrice
  let pg : ℚ × ℚ :=
    match bybitClosedPnl with
    | some b =>
      if b ≠ 0 then (b, b + feesTotal)
      else
        -- falls through to the calculated-PnL branch (the `!== 0` guard)
        match trackedSide with
        | some s =>
          if 0 < entryPrice ∧ 0 < exitPrice ∧ 0 < trackedQty then
            let calcGross := if s = "Buy" then (exitPrice - entryPrice) * trackedQty
                             else (entryPrice - exitPrice) * trackedQty
            (calcGross - feesTotal, calcGross)
          else (0, 0)
        | none => (0, 0)
    | none =>
      match trackedSide with
      | some s =>
        if 0 < entryPrice ∧ 0 < exitPrice ∧ 0 < trackedQty then
          let calcGross := if s = "Buy" then (exitPrice - entryPrice) * trackedQty
                           else (entryPrice - exitPrice) * trackedQty
          (calcGross - feesTotal, calcGross)
        else (0, 0)
      | none => (0, 0)
  ({ pnl := pg.1
     grossPnl := pg.2
     feesOpen := feesOpen
     feesClose := feesClose
     feesTotal := feesTotal
     entryIsMaker := entryIsMaker
     exitIsMaker := exitIsMaker
     avgEntryPrice := avgEntryPrice
     avgExitPrice := avgExitPrice
     closeOrderId := closeOrderId
     bybitClosedPnl := bybitClosedPnl }, used')

/-- One record of `pnlHistory` (monitor.js 571–596 / 700–724). -/
structure PnlRecord where
  symbol : String
  orderId : Option String
  closeOrderId : Option String
  side : String
  entryPrice : ℚ
  exitPrice : ℚ
  tpPrice : Option ℚ
  slPrice : Option ℚ
  qty : ℚ
  grossPnl : ℚ
  pnl : ℚ
  feesOpen : ℚ
  feesClose : ℚ
  feesTotal : ℚ
  exitType : String
  openTime : ℤ
  closedAt : ℤ
  entryIsMaker : Bool
  exitIsMaker : Bool
deriving Repr, DecidableEq

/-- Monitor module state (`pnlHistory`, `totalPnl`, `usedCloseOrderIds`,
`resetTimestamp`). -/
structure MonState where
  pnlHistory : List PnlRecord
  totalPnl : ℚ
  usedCloseOrderIds : List String
  resetTimestamp : ℤ
deriving Repr, DecidableEq

/-- `getTotalPnl` (monitor.js 341–343): reduce over the live history. -/
def getTotalPnl (st : MonState) : ℚ :=
  (st.pnlHistory.map (fun p => p.pnl)).sum

/-- The statistics slice of `getStats` (monitor.js 365–394) computable from
monitor state (trade-log derived fields are omitted). -/
structure Stats where
  closedTrades : ℕ
  wins : ℕ
  losses : ℕ
  unresolved : ℕ
  totalPnl : ℚ
  totalGrossPnl : ℚ
  totalFees : ℚ
deriving Repr, DecidableEq

/-- `getStats` (monitor.js 365–394). -/
def getStats (st : MonState) : Stats :=
  let resolved := st.pnlHistory.filter (fun p => p.pnl ≠ 0 ∨ p.exitPrice ≠ 0)
  let wins := resolved.filter (fun p => 0 < p.pnl)
  let losses := resolved.filter (fun p => p.pnl < 0)
  let totalFees := (st.pnlHistory.map (fun p => p.feesTotal)).sum
  let totalGrossPnl := (st.pnlHistory.map (fun p =>
    if p.grossPnl = 0 then p.pnl + p.feesTotal else p.grossPnl)).sum
  { closedTrades := st.pnlHistory.length
    wins := wins.length
    losses := losses.length
    unresolved := st.pnlHistory.length - resolved.length
    totalPnl := (st.pnlHistory.map (fun p => p.pnl)).sum
    totalGrossPnl := totalGrossPnl
    totalFees := totalFees }

/-- `recordClose` (monitor.js 568–604): prepend the closed trade, bump the
running accumulator, drop the position from the ledger. -/
def recordClose (now : ℤ) (st : MonState) (aps : List (String × Position))
    (symbol : String) (tracked : Position) (closeData : CloseData)
    (exitType : String) : MonState × List (String × Position) :=
  let rec0 : PnlRecord :=
    { symbol := symbol
      orderId := tracked.orderId
      closeOrderId := closeData.closeOrderId
      side := tracked.side
      entryPrice := tracked.entryPrice
      exitPrice := closeData.avgExitPrice
      tpPrice := tracked.tpPrice
      slPrice := tracked.slPrice
      qty := tracked.qty
      grossPnl := closeData.grossPnl
      pnl := closeData.pnl
      feesOpen := closeData.feesOpen
      feesClose := closeData.feesClose
      feesTotal := closeData.feesTotal
      exitType := exitType
      openTime := tracked.openTime
      closedAt := now
      entryIsMaker := closeData.entryIsMaker
      exitIsMaker := closeData.exitIsMaker }
  ({ st with pnlHistory := rec0 :: st.pnlHistory, totalPnl := st.totalPnl + closeData.pnl },
   delPos aps symbol)

/-- `hydratePnl` id seeding (monitor.js 317–325): consumed ids are seeded
from the persisted history's `closeOrderId`s. -/
def seedUsedIds (savedHistory : List PnlRecord) (used : List String) : List String :=
  savedHistory.foldl
    (fun acc r => match r.closeOrderId with
      | some cid => cid :: acc
      | none => acc)
    used

/-- Time-bucket dedup keys built from the history *before* the backfill
loop (monitor.js 621–631); broken `pnl:0` records are excluded so they can
be repaired. Keys are (symbol, bucket) with buckets of 120 s. -/
def knownBuckets (hist : List PnlRecord) : List (String × ℤ) :=
  hist.foldl
    (fun acc rec =>
      if rec.pnl = 0 ∧ rec.exitPrice = 0 then acc
      else if rec.closedAt ≠ 0 ∧ rec.symbol ≠ "" then
        let b := Int.fdiv rec.closedAt 120000
        (rec.symbol, b) :: (rec.symbol, b - 1) :: (rec.symbol, b + 1) :: acc
      else acc)
    []

/-- In-place list update at an index (`pnlHistory[existingIdx] = ...`). -/
def updateAt : List PnlRecord → ℕ → (PnlRecord → PnlRecord) → List PnlRecord
  | [], _, _ => []
  | p :: rest, 0, f => f p :: rest
  | p :: rest, i + 1, f => p :: updateAt rest i f

/-- Remote responses consumed by one `reconcilePnl` pass. -/
structure ReconcileEnv where
  /-- `getExecutionList(symbol, closeOrderId)`, keyed by close order id. -/
  closeExecs : String → Option (List ExecFill)

/-- The broken-record predicate of `reconcilePnl` (monitor.js 681–687): a
record for the same symbol with unresolved PnL and no exit price, matching
by entry price within 5% or quantity within 30%. -/
def brokenPred (rec : ClosedPnlRec) (p : PnlRecord) : Bool :=
  p.symbol = rec.symbol ∧ p.pnl = 0 ∧ p.exitPrice = 0 ∧
    ((0 < rec.avgEntryPrice ∧ 0 < p.entryPrice ∧
        |p.entryPrice - rec.avgEntryPrice| / rec.avgEntryPrice < 5/100) ∨
     (0 < rec.qty ∧ 0 < p.qty ∧ |p.qty - rec.qty| / rec.qty < 3/10))

/-- `pnlHistory.findIndex(...)` over the broken-record predicate. -/
def findBrokenIdx : List PnlRecord → ClosedPnlRec → Option ℕ
  | [], _ => none
  | p :: rest, rec =>
    if brokenPred rec p then some 0
    else (findBrokenIdx rest rec).map (· + 1)

/-- One iteration of the `reconcilePnl` backfill loop (monitor.js 635–730).
Returns the new state and whether a record was appended or repaired. -/
def reconcileStep (renv : ReconcileEnv) (known : List (String × ℤ))
    (st : MonState) (rec : ClosedPnlRec) : MonState × Bool :=
  let closeOrderId := rec.orderId
  let bucket := Int.fdiv rec.createdTime 120000
  if 0 < st.resetTimestamp ∧ rec.createdTime < st.resetTimestamp then (st, false)
  else if st.usedCloseOrderIds.contains closeOrderId then (st, false)
  else if known.contains (rec.symbol, bucket) then (st, false)
  else
    let feesClose : ℚ := match renv.closeExecs closeOrderId with
      | some l => (l.map (fun e => e.execFee)).sum
      | none => 0
    let exitIsMaker : Bool := match renv.closeExecs closeOrderId with
      | some l => (l.head?.map (fun e => e.isMaker)).getD false
      | none => false
    let feesTotal := 0 + feesClose
    let netPnl := rec.closedPnl
    let grossPnl := netPnl + feesTotal
    let st' : MonState :=
      match findBrokenIdx st.pnlHistory rec with
      | some i =>
        { st with pnlHistory := updateAt st.pnlHistory i (fun p =>
            { p with
              exitPrice := rec.avgExitPrice
              grossPnl := grossPnl
              pnl := netPnl
              closeOrderId := some closeOrderId
              feesClose := feesClose
              feesTotal := p.feesOpen + feesClose
              exitIsMaker := exitIsMaker }) }
      | none =>
        { st with pnlHistory := st.pnlHistory ++
            [{ symbol := rec.symbol
               orderId := none
               closeOrderId := some closeOrderId
               side := rec.side
               entryPrice := rec.avgEntryPrice
               exitPrice := rec.avgExitPrice
               tpPrice := none
               slPrice := none
               qty := rec.qty
               grossPnl := grossPnl
               pnl := netPnl
               feesOpen := 0
               feesClose := feesClose
               feesTotal := feesTotal
               exitType := "RECONCILED"
               openTime := rec.createdTime
               closedAt := rec.createdTime
               entryIsMaker := false
               exitIsMaker := exitIsMaker }] }
    ({ st' with usedCloseOrderIds := closeOrderId :: st'.usedCloseOrderIds }, true)

/-- A full `reconcilePnl` pass (monitor.js 611–742) over the venue's
records; when anything was backfilled the history is re-sorted by
`closedAt` descending. -/
def reconcilePass (renv : ReconcileEnv) (st : MonState)
    (bybitRecords : List ClosedPnlRec) : MonState :=
  let known := knownBuckets st.pnlHistory
  let r := bybitRecords.foldl
    (fun (acc : MonState × ℕ) rec =>
      let s := reconcileStep renv known acc.1 rec
      (s.1, acc.2 + (if s.2 then 1 else 0)))
    (st, 0)
  if 0 < r.2 then
    let sorted := r.1.pnlHistory.mergeSort (fun a b => decide (b.closedAt ≤ a.closedAt))
    { r.1 with pnlHistory := sorted }
  else r.1

/-! ## Untracked-position adoption and naked-position protection -/

/-- A remote open position as returned by `getPositions` (parsed fields). -/
structure RemotePosition where
  symbol : String
  side : String
  size : ℚ
  avgPrice : ℚ
  takeProfit : ℚ
  stopLoss : ℚ
  trailingStop : ℚ
  createdTime : ℤ
deriving Repr, DecidableEq

/-- `instrumentCache.roundPrice(symbol, price)`: identity when the symbol
is unknown. -/
def cacheRoundPrice (insts : String → Option Instrument) (s : String) (price : ℚ) : ℚ :=
  match insts s with
  | some i => roundPrice i price
  | none => price

/-- The Position built for an untracked remote position
(`syncPositions`, monitor.js 416–447). -/
def adoptPosition (insts : String → Option Instrument) (now : ℤ)
    (p : RemotePosition) : Position :=
  let entryPrice := p.avgPrice
  let trailDist := jsNum p.trailingStop
  let trailActive : Option ℚ :=
    match trailDist with
    | some t =>
      let feeBuffer := cacheRoundPrice insts p.symbol (entryPrice * (15/10000))
      some (if p.side = "Buy" then cacheRoundPrice insts p.symbol (entryPrice + t + feeBuffer)
            else cacheRoundPrice insts p.symbol (entryPrice - t - feeBuffer))
    | none => none
  { symbol := p.symbol
    side := p.side
    entryPrice := entryPrice
    qty := p.size
    tpPrice := jsNum p.takeProfit
    slPrice := jsNum p.stopLoss
    orderId := none
    openTime := if p.createdTime = 0 then now else p.createdTime
    trailingStop := trailDist
    trailActivePrice := trailActive
    tpMethod := "detected"
    dcaLevel := 0
    totalBudget := 0
    lastEntryPrice := entryPrice }

/-- Confirmed-set protection fields returned by
`ensureProtectionOnPosition`. -/
structure ProtectionResult where
  slPrice : Option ℚ
  trailingStop : Option ℚ
  trailActivePrice : Option ℚ
deriving Repr, DecidableEq

/-- `ensureProtectionOnPosition` (monitor.js 203–301): ATR-based SL with
risk-budget fallback, clamped; ATR-based trailing; each remote call is
independently fallible and the return reflects only confirmed-set fields
(`null` unless the SL was set). -/
def ensureProtectionOnPosition (cfg : Config) (insts : String → Option Instrument)
    (atr : Option ℚ) (balance : ℚ) (positionCount : ℕ)
    (slSetOk trailSetOk : Bool) (symbol side : String) (entryPrice qty : ℚ) :
    Option ProtectionResult :=
  match insts symbol with
  | none => none
  | some inst =>
    let atrOk : Bool := match atr with
      | some a => decide (0 < a)
      | none => false
    if atrOk = false ∧ balance ≤ 0 then none
    else
      let slOffset := protectionSlOffset cfg inst atr balance positionCount entryPrice qty
      let slPrice := if side = "Buy" then roundPrice inst (entryPrice - slOffset)
                     else roundPrice inst (entryPrice + slOffset)
      let trailingStop : Option ℚ :=
        match atr with
        | some a =>
          if 0 < a then
            let t := roundPrice inst (a * cfg.trailingAtrMultiplier)
            if t = 0 then (if inst.tickSize ≠ 0 then some inst.tickSize else none)
            else some t
          else none
        | none => none
      let trailActive : Option ℚ :=
        match trailingStop with
        | some t =>
          let fb := roundPrice inst (entryPrice * (15/10000))
          some (if side = "Buy" then roundPrice inst (entryPrice + t + fb)
                else roundPrice inst (entryPrice - t - fb))
        | none => none
      let setTrail := jsTruthy trailingStop ∧ jsTruthy trailActive ∧ trailSetOk
      let result : ProtectionResult :=
        { slPrice := if slSetOk then some slPrice else none
          trailingStop := if setTrail then trailingStop else none
          trailActivePrice := if setTrail then trailActive else none }
      if jsTruthy result.slPrice then some result else none

/-- Environment for one `syncPositions` tick. -/
structure MonitorEnv where
  insts : String → Option Instrument
  atr : String → Option ℚ
  balance : ℚ
  slSetOk : String → Bool
  trailSetOk : String → Bool
  now : ℤ
deriving Inhabited

/-- The untracked-position adoption loop of `syncPositions`
(monitor.js 412–466): adopt each remote-only, unlocked symbol; when the
adopted position lacks SL or trailing, invoke the protection routine and
fold its confirmed fields back in.  No shared-risk tightening happens here. -/
def adoptUntracked (cfg : Config) (menv : MonitorEnv)
    (aps : List (String × Position)) (pending : List String)
    (remote : List RemotePosition) : List (String × Position) :=
  remote.foldl
    (fun acc p =>
      if ¬ 0 < p.size then acc
      else if (lookupPos acc p.symbol).isSome then acc
      else if p.symbol ∈ pending then acc
      else
        let position := adoptPosition menv.insts menv.now p
        let acc' := setPos acc p.symbol position
        let needsSL := ¬ jsTruthy position.slPrice
        let needsTrail := ¬ jsTruthy position.trailingStop
        if needsSL ∨ needsTrail then
          match ensureProtectionOnPosition cfg menv.insts (menv.atr p.symbol)
              menv.balance (max 1 acc'.length) (menv.slSetOk p.symbol)
              (menv.trailSetOk p.symbol) p.symbol p.side position.entryPrice p.size with
          | some prot =>
            let position' :=
              { position with
                slPrice := if jsTruthy prot.slPrice then prot.slPrice else position.slPrice
                trailingStop := if jsTruthy prot.trailingStop then prot.trailingStop
                                else position.trailingStop
                trailActivePrice := if jsTruthy prot.trailActivePrice then prot.trailActivePrice
                                    else position.trailActivePrice }
            setPos acc' p.symbol position'
          | none => acc'
        else acc')
    aps

/-! ## Concrete fixtures used by counterexamples and witnesses -/

/-- A typical instrument: tick 0.01, lot 0.1, min qty 0.1. -/
def sampleInst : Instrument := ⟨1/100, 1/10, 1/10, 50, false, "Trading"⟩

/-- A degenerate instrument whose tick exceeds 90% of a unit price. -/
def coarseInst : Instrument := ⟨1, 1, 1, 50, false, "Trading"⟩

/-- The default configuration values of config.js (market entries). -/
def sampleCfg : Config := ⟨50, 3/10, 5, 5, 5, 50, 1, 3/2, 1, 3/2, 2, "Market", "Limit"⟩

/-- An environment in which a fresh market entry on `XUSDT` succeeds. -/
def sampleEnv : Env :=
  ⟨fun s => if s = "XUSDT" then some sampleInst else none,
   false, some (1/2), none, none, 0, false, none, none, "ord1", 1000, fun _ => true⟩

/-- Empty executor state with a $1000 balance. -/
def sampleState : ExecState := ⟨[], [], [], 1000⟩

/-- A qualifying long-liquidation event (Scenario A shape). -/
def sampleEvent : LiqEvent := ⟨"XUSDT", "Buy", 100, 50000⟩

/-- A second same-tick event on the same symbol. -/
def sampleEvent2 : LiqEvent := ⟨"XUSDT", "Sell", 101, 60000⟩

/-- The position `executeTrade` produces from the fixtures above. -/
def sampleFilledPos : Position :=
  ⟨"XUSDT", "Buy", 100, 1/2, none, some 90, some "ord1", 1000,
   some (3/4), some (1009/10), "ATR", 0, 500, 100⟩

/-- A tracked position ready for a DCA add. -/
def dcaPos : Position :=
  ⟨"XUSDT", "Buy", 100, 1/2, none, some 90, some "ord1", 1000,
   none, none, "ATR", 0, 500, 100⟩

/-- Executor state holding `dcaPos`. -/
def dcaState : ExecState := ⟨[("XUSDT", dcaPos)], [], ["XUSDT"], 1000⟩

/-- A better-priced liquidation triggering the DCA add. -/
def dcaEvent : LiqEvent := ⟨"XUSDT", "Buy", 95, 20000⟩

/-- A venue closed-PnL record reporting exactly zero PnL. -/
def zeroPnlRec : ClosedPnlRec := ⟨"XUSDT", "c1", "Buy", 100, 110, 1, 0, 10⟩

/-- Close environment matching `zeroPnlRec` on the first attempt. -/
def zeroPnlEnv : CloseEnv :=
  ⟨fun _ => some [zeroPnlRec], some [⟨1/20, true⟩],
   fun cid => if cid = "c1" then some [⟨1/20, false⟩] else none⟩

/-- A venue closed-PnL record reporting a nonzero PnL. -/
def nzPnlRec : ClosedPnlRec := ⟨"XUSDT", "c2", "Buy", 100, 110, 1, 5, 10⟩

/-- Close environment matching `nzPnlRec` on the first attempt. -/
def nzPnlEnv : CloseEnv :=
  ⟨fun _ => some [nzPnlRec], some [⟨1/20, true⟩],
   fun cid => if cid = "c2" then some [⟨1/20, false⟩] else none⟩

/-- A ledger position whose SL is looser than its shared-risk recompute. -/
def ledgerPosA : Position :=
  ⟨"AAA", "Buy", 100, 1, none, some 90, none, 0, none, none, "ATR", 0, 0, 100⟩

/-- A remote position carrying both a fixed TP and a trailing stop. -/
def remotePosB : RemotePosition := ⟨"BBB", "Buy", 1, 10, 5, 9, 2, 77⟩

/-- Monitor tick environment (no instruments needed by the fixtures). -/
def sampleMonEnv : MonitorEnv := ⟨fun _ => none, fun _ => none, 100, fun _ => true, fun _ => true, 123⟩

/-- A venue record whose close id is already consumed. -/
def usedRec : ClosedPnlRec := ⟨"XUSDT", "c9", "Buy", 100, 110, 1, 5, 999999⟩

/-- Monitor state that has already consumed `"c9"`. -/
def usedMonState : MonState := ⟨[], 0, ["c9"], 0⟩

/-- Reconcile environment with no execution records. -/
def sampleReconEnv : ReconcileEnv := ⟨fun _ => none⟩

/-- A candidate that tier 1 accepts against entry 100 / qty 1. -/
def tier1Rec : ClosedPnlRec := ⟨"XUSDT", "t1", "Buy", 100, 110, 1, 5, 50⟩

/-- The executor state `executeTrade` leaves behind from the fixtures. -/
def sampleFilledState : ExecState :=
  ⟨[("XUSDT", sampleFilledPos)], [], ["XUSDT"], 1000⟩

/-- A position already at the final DCA level (3 of splits 0..3). -/
def dcaFullPos : Position :=
  ⟨"XUSDT", "Buy", 100, 5, none, some 90, some "ord1", 1000,
   none, none, "ATR", 3, 500, 100⟩

/-- Executor state holding `dcaFullPos`. -/
def dcaFullState : ExecState := ⟨[("XUSDT", dcaFullPos)], [], ["XUSDT"], 1000⟩

/-! ## Helper lemmas -/

theorem lookupPos_setPos_self (m : List (String × Position)) (s : String) (p : Position) :
    lookupPos (setPos m s p) s = some p := by
  induction m with
  | nil => simp [setPos, lookupPos]
  | cons q rest ih =>
    by_cases h : q.1 = s <;> simp [setPos, lookupPos, h, ih]

theorem firstSome_eq_some {α β : Type} (f : β → Option α) (m : α) :
    ∀ l : List β, firstSome f l = some m → ∃ b, b ∈ l ∧ f b = some m := by
  intro l
  induction l with
  | nil => intro h; simp [firstSome] at h
  | cons b rest ih =>
    intro h
    unfold firstSome at h
    cases hb : f b with
    | some x =>
      rw [hb] at h
      exact ⟨b, List.mem_cons_self b rest, by rw [hb]; exact h⟩
    | none =>
      rw [hb] at h
      obtain ⟨b', hb', hf⟩ := ih h
      exact ⟨b', List.mem_cons_of_mem b hb', hf⟩

theorem selectMatch_mem (e q : ℚ) (s : Option String) (cands : List ClosedPnlRec)
    (r : ClosedPnlRec) (t : ℕ) (h : selectMatch e q s cands = some (r, t)) : r ∈ cands := by
  have hhead : cands.head?.map (fun x => (x, 4)) = some (r, t) → r ∈ cands := by
    intro hx
    cases cands with
    | nil => simp at hx
    | cons c cs =>
      simp only [List.head?, Option.map_some', Option.some.injEq, Prod.mk.injEq] at hx
      rw [← hx.1]
      exact List.mem_cons_self c cs
  unfold selectMatch at h
  cases h1 : cands.find? (tier1Match e q) with
  | some r1 =>
    simp only [h1, Option.some.injEq, Prod.mk.injEq] at h
    rw [← h.1]
    exact List.mem_of_find?_eq_some h1
  | none =>
    simp only [h1] at h
    cases h2 : cands.find? (tier2Match e q) with
    | some r2 =>
      simp only [h2, Option.some.injEq, Prod.mk.injEq] at h
      rw [← h.1]
      exact List.mem_of_find?_eq_some h2
    | none =>
      simp only [h2] at h
      cases s with
      | none => exact hhead h
      | some sd =>
        simp only [] at h
        cases h3 : cands.find? (fun c => decide (c.side = sd)) with
        | some r3 =>
          simp only [h3, Option.some.injEq, Prod.mk.injEq] at h
          rw [← h.1]
          exact List.mem_of_find?_eq_some h3
        | none =>
          simp only [h3] at h
          exact hhead h

theorem candidateFilter_not_used (used : List String) (ot : ℤ) (rel : Bool)
    (recs : List ClosedPnlRec) (r : ClosedPnlRec)
    (h : r ∈ candidateFilter used ot rel recs) : r.orderId ∉ used := by
  unfold candidateFilter at h
  have hc := List.of_mem_filter h
  simp only [decide_eq_true_eq] at hc
  intro hmem
  exact hc.1 (List.elem_iff.mpr hmem)

theorem closePnlAttempt_not_used (used : List String) (e q : ℚ) (s : Option String)
    (ot : ℤ) (a : ℕ) (remote : Option (List ClosedPnlRec)) (r : ClosedPnlRec) (t : ℕ)
    (h : closePnlAttempt used e q s ot a remote = some (r, t)) : r.orderId ∉ used := by
  unfold closePnlAttempt at h
  cases remote with
  | none => simp at h
  | some recs =>
    simp only at h
    by_cases he : recs.isEmpty
    · rw [if_pos he] at h; cases h
    · rw [if_neg he] at h
      by_cases hce : (candidateFilter used ot (relaxTimeFilter a) recs).isEmpty
      · rw [if_pos hce] at h; cases h
      · rw [if_neg hce] at h
        exact candidateFilter_not_used used ot (relaxTimeFilter a) recs r
          (selectMatch_mem e q s _ r t h)

theorem matchClosedPnl_not_used (used : List String) (e q : ℚ) (s : Option String)
    (ot : ℤ) (remotes : ℕ → Option (List ClosedPnlRec)) (r : ClosedPnlRec) (t a : ℕ)
    (h : matchClosedPnl used e q s ot remotes = some (r, t, a)) : r.orderId ∉ used := by
  unfold matchClosedPnl at h
  obtain ⟨b, _, hf⟩ := firstSome_eq_some _ _ _ h
  cases hm : closePnlAttempt used e q s ot b (remotes b) with
  | none => rw [hm] at hf; cases hf
  | some rt =>
    rw [hm] at hf
    simp only [Option.map_some', Option.some.injEq, Prod.mk.injEq] at hf
    rw [← hf.1]
    exact closePnlAttempt_not_used used e q s ot b (remotes b) rt.1 rt.2 (by rw [hm])

theorem sum_updateAt_broken (rec : ClosedPnlRec) (f : PnlRecord → PnlRecord) (c : ℚ)
    (hf : ∀ p, brokenPred rec p = true → (f p).pnl = c) :
    ∀ (hist : List PnlRecord) (i : ℕ), findBrokenIdx hist rec = some i →
      ((updateAt hist i f).map (fun p => p.pnl)).sum
        = (hist.map (fun p => p.pnl)).sum + c := by
  intro hist
  induction hist with
  | nil => intro i h; simp [findBrokenIdx] at h
  | cons p rest ih =>
    intro i h
    by_cases hb : brokenPred rec p = true
    · rw [findBrokenIdx, if_pos hb] at h
      cases h
      have h0 : p.pnl = 0 := by
        simp only [brokenPred, decide_eq_true_eq] at hb
        exact hb.2.1
      simp only [updateAt, List.map_cons, List.sum_cons, hf p hb, h0]
      ring
    · rw [findBrokenIdx, if_neg hb] at h
      cases hj : findBrokenIdx rest rec with
      | none => rw [hj] at h; cases h
      | some j =>
        rw [hj] at h
        simp only [Option.map_some', Option.some.injEq] at h
        rw [← h]
        simp only [updateAt, List.map_cons, List.sum_cons, ih j hj]
        ring

theorem findBrokenIdx_lt_length (rec : ClosedPnlRec) :
    ∀ (hist : List PnlRecord) (i : ℕ), findBrokenIdx hist rec = some i →
      i < hist.length := by
  intro hist
  induction hist with
  | nil => intro i h; simp [findBrokenIdx] at h
  | cons p rest ih =>
    intro i h
    by_cases hb : brokenPred rec p = true
    · rw [findBrokenIdx, if_pos hb] at h
      cases h
      simp
    · rw [findBrokenIdx, if_neg hb] at h
      cases hj : findBrokenIdx rest rec with
      | none => rw [hj] at h; cases h
      | some j =>
        rw [hj] at h
        simp only [Option.map_some', Option.some.injEq] at h
        rw [← h]
        simpa using Nat.succ_lt_succ (ih j hj)

theorem length_updateAt (f : PnlRecord → PnlRecord) :
    ∀ (hist : List PnlRecord) (i : ℕ), (updateAt hist i f).length = hist.length := by
  intro hist
  induction hist with
  | nil => intro i; rfl
  | cons p rest ih =>
    intro i
    cases i with
    | zero => rfl
    | succ j => simp [updateAt, ih j]

theorem reconcileStep_skip_of_used (renv : ReconcileEnv) (known : List (String × ℤ))
    (st : MonState) (rec : ClosedPnlRec) (h : rec.orderId ∈ st.usedCloseOrderIds) :
    reconcileStep renv known st rec = (st, false) := by
  have hc : st.usedCloseOrderIds.contains rec.orderId = true := List.elem_iff.mpr h
  simp only [reconcileStep, hc]
  split <;> rfl

theorem reconcileStep_totalPnl (renv : ReconcileEnv) (known : List (String × ℤ))
    (st : MonState) (rec : ClosedPnlRec) :
    (reconcileStep renv known st rec).1.totalPnl = st.totalPnl := by
  simp only [reconcileStep]
  split
  · rfl
  · split
    · rfl
    · split
      · rfl
      · cases h : findBrokenIdx st.pnlHistory rec <;> simp [h]

theorem reconcileStep_sum (renv : ReconcileEnv) (known : List (String × ℤ))
    (st : MonState) (rec : ClosedPnlRec) :
    getTotalPnl (reconcileStep renv known st rec).1 =
      getTotalPnl st + (if (reconcileStep renv known st rec).2 then rec.closedPnl else 0) := by
  simp only [reconcileStep]
  split
  · simp [getTotalPnl]
  · split
    · simp [getTotalPnl]
    · split
      · simp [getTotalPnl]
      · cases h : findBrokenIdx st.pnlHistory rec with
        | some i =>
          simp only [h, getTotalPnl, if_true]
          exact sum_updateAt_broken rec _ rec.closedPnl (fun p _ => rfl) st.pnlHistory i h
        | none =>
          simp [h, getTotalPnl]

theorem reconcilePass_totalPnl (renv : ReconcileEnv) (st : MonState)
    (recs : List ClosedPnlRec) :
    (reconcilePass renv st recs).totalPnl = st.totalPnl := by
  have key : ∀ (l : List ClosedPnlRec) (acc : MonState × ℕ),
      (l.foldl (fun (acc : MonState × ℕ) rec =>
          let s := reconcileStep renv (knownBuckets st.pnlHistory) acc.1 rec
          (s.1, acc.2 + (if s.2 then 1 else 0))) acc).1.totalPnl = acc.1.totalPnl := by
    intro l
    induction l with
    | nil => intro acc; rfl
    | cons r rest ih =>
      intro acc
      rw [List.foldl_cons, ih]
      exact reconcileStep_totalPnl renv _ acc.1 r
  simp only [reconcilePass]
  split
  · exact key recs (st, 0)
  · exact key recs (st, 0)

/-- **C10**: the reported total PnL is always recomputed as the sum of the
`pnl` fields of the records currently in `pnlHistory`; the running
`totalPnl` accumulator plays no part in `getTotalPnl`/`getStats` and is
left untouched by the backfill pass, so an in-place repair or backfill is
immediately reflected in the reported total. -/
theorem c10_total_pnl_recomputed_from_history :
    (∀ (st : MonState) (t : ℚ), getTotalPnl { st with totalPnl := t } = getTotalPnl st) ∧
    (∀ st : MonState, (getStats st).totalPnl = getTotalPnl st) ∧
    (∀ (renv : ReconcileEnv) (known : List (String × ℤ)) (st : MonState) (rec : ClosedPnlRec),
      (reconcileStep renv known st rec).1.totalPnl = st.totalPnl ∧
      getTotalPnl (reconcileStep renv known st rec).1 =
        getTotalPnl st + (if (reconcileStep renv known st rec).2 then rec.closedPnl else 0)) ∧
    (∀ (renv : ReconcileEnv) (st : MonState) (recs : List ClosedPnlRec),
      (reconcilePass renv st recs).totalPnl = st.totalPnl) := by
  refine ⟨fun st t => rfl, fun st => rfl, fun renv known st rec => ⟨?_, ?_⟩, ?_⟩
  · exact reconcileStep_totalPnl renv known st rec
  · exact reconcileStep_sum renv known st rec
  · exact reconcilePass_totalPnl

/-- **C2**: each remote close-order-id is consumed at most once: the tier
matcher never selects a consumed id and marks the id it matches consumed;
the backfill pass skips a record whose id is consumed, leaving the state —
in particular the history length and the reported total — unchanged. -/
theorem c2_close_order_id_consumed_once :
    (∀ (used : List String) (e q : ℚ) (s : Option String) (ot : ℤ)
       (remotes : ℕ → Option (List ClosedPnlRec)) (r : ClosedPnlRec) (t a : ℕ),
       matchClosedPnl used e q s ot remotes = some (r, t, a) → r.orderId ∉ used) ∧
    (∀ (cenv : CloseEnv) (used : List String) (eid : Option String) (e q : ℚ)
       (s : Option String) (ot : ℤ) (cid : String),
       (fetchBybitCloseData cenv used eid e q s ot).1.closeOrderId = some cid →
       cid ∉ used ∧ cid ∈ (fetchBybitCloseData cenv used eid e q s ot).2) ∧
    (∀ (renv : ReconcileEnv) (known : List (String × ℤ)) (st : MonState) (rec : ClosedPnlRec),
       rec.orderId ∈ st.usedCloseOrderIds →
       reconcileStep renv known st rec = (st, false) ∧
       (reconcileStep renv known st rec).1.pnlHistory.length = st.pnlHistory.length ∧
       getTotalPnl (reconcileStep renv known st rec).1 = getTotalPnl st) := by
  refine ⟨?_, ?_, ?_⟩
  · exact fun used e q s ot remotes r t a h => matchClosedPnl_not_used used e q s ot remotes r t a h
  · intro cenv used eid e q s ot cid h
    have h1 : (fetchBybitCloseData cenv used eid e q s ot).1.closeOrderId =
        (matchClosedPnl used e q s ot cenv.closedPnlAttempts).map (fun m => m.1.orderId) := rfl
    have h2 : (fetchBybitCloseData cenv used eid e q s ot).2 =
        (match (matchClosedPnl used e q s ot cenv.closedPnlAttempts).map
            (fun m => m.1.orderId) with
         | some c => c :: used
         | none => used) := rfl
    rw [h1] at h
    cases hm : matchClosedPnl used e q s ot cenv.closedPnlAttempts with
    | none => rw [hm] at h; simp at h
    | some m =>
      rw [hm] at h
      simp only [Option.map_some', Option.some.injEq] at h
      refine ⟨?_, ?_⟩
      · rw [← h]
        exact matchClosedPnl_not_used used e q s ot cenv.closedPnlAttempts m.1 m.2.1 m.2.2
          (by rw [hm])
      · rw [h2, hm]
        simp only [Option.map_some']
        rw [← h]
        exact List.mem_cons_self _ _
  · intro renv known st rec h
    have hs := reconcileStep_skip_of_used renv known st rec h
    exact ⟨hs, by rw [hs], by rw [hs]⟩

/-- **C3**: close matching filters candidates to unconsumed ids (and, on
non-final attempts, to records created after the position's open time),
then applies four tiers in order with the first match winning: (1) entry
within 0.5% and qty within 1%; (2) entry within 5% and qty within 20%;
(3) matching side; (4) the most recent candidate; six attempts with 3 s
delays, the final two dropping the open-time filter. -/
theorem c3_tiered_close_matching :
    maxRetries = 6 ∧ retryDelayMs = 3000 ∧
    (∀ a : ℕ, relaxTimeFilter a = true ↔ 4 ≤ a) ∧
    (∀ (used : List String) (ot : ℤ) (rel : Bool) (recs : List ClosedPnlRec)
       (r : ClosedPnlRec),
      r ∈ candidateFilter used ot rel recs ↔
        r ∈ recs ∧ r.orderId ∉ used ∧ (rel = true ∨ ¬ 0 < ot ∨ ¬ r.createdTime < ot)) ∧
    (∀ (e q : ℚ) (r : ClosedPnlRec), 0 < e → 0 < q → 0 < r.avgEntryPrice → 0 < r.qty →
      (tier1Match e q r = true ↔
        |r.avgEntryPrice - e| / e < 5/1000 ∧ |r.qty - q| / q < 1/100) ∧
      (tier2Match e q r = true ↔
        |r.avgEntryPrice - e| / e < 5/100 ∧ |r.qty - q| / q < 2/10)) ∧
    (∀ (e q : ℚ) (s : Option String) (cands : List ClosedPnlRec) (r : ClosedPnlRec),
      cands.find? (tier1Match e q) = some r → selectMatch e q s cands = some (r, 1)) ∧
    (∀ (e q : ℚ) (s : Option String) (cands : List ClosedPnlRec) (r : ClosedPnlRec),
      cands.find? (tier1Match e q) = none →
      cands.find? (tier2Match e q) = some r → selectMatch e q s cands = some (r, 2)) ∧
    (∀ (e q : ℚ) (sd : String) (cands : List ClosedPnlRec) (r : ClosedPnlRec),
      cands.find? (tier1Match e q) = none → cands.find? (tier2Match e q) = none →
      cands.find? (fun c => decide (c.side = sd)) = some r →
      selectMatch e q (some sd) cands = some (r, 3)) ∧
    (∀ (e q : ℚ) (sd : String) (cands : List ClosedPnlRec),
      cands.find? (tier1Match e q) = none → cands.find? (tier2Match e q) = none →
      cands.find? (fun c => decide (c.side = sd)) = none →
      selectMatch e q (some sd) cands = cands.head?.map (fun r => (r, 4))) := by
  refine ⟨rfl, rfl, ?_, ?_, ?_, ?_, ?_, ?_, ?_⟩
  · intro a
    simp only [relaxTimeFilter, maxRetries, decide_eq_true_eq]
  · intro used ot rel recs r
    simp [candidateFilter, List.mem_filter, decide_eq_true_eq, List.elem_iff]
  · intro e q r he hq hre hrq
    constructor
    · simp only [tier1Match, if_pos (And.intro he hre), if_pos (And.intro hq hrq),
        decide_eq_true_eq]
    · simp only [tier2Match, if_pos (And.intro he hre), if_pos (And.intro hq hrq),
        decide_eq_true_eq]
  · intro e q s cands r h1
    simp [selectMatch, h1]
  · intro e q s cands r h1 h2
    simp [selectMatch, h1, h2]
  · intro e q sd cands r h1 h2 h3
    simp [selectMatch, h1, h2, h3]
  · intro e q sd cands h1 h2 h3
    simp [selectMatch, h1, h2, h3]

/-- Witness for C3: a record within 0.5%/1% of the tracked entry is picked
by tier 1, and attempt 4 of 6 relaxes the time filter. -/
theorem c3_tiered_close_matching_witness :
    relaxTimeFilter 4 = true ∧
    [tier1Rec].find? (tier1Match 100 1) = some tier1Rec ∧
    selectMatch 100 1 (some "Buy") [tier1Rec] = some (tier1Rec, 1) := by
  have hf : [tier1Rec].find? (tier1Match 100 1) = some tier1Rec := by
    norm_num [List.find?, tier1Match, tier1Rec]
  exact ⟨(c3_tiered_close_matching.2.2.1 4).mpr (by norm_num),
    hf, c3_tiered_close_matching.2.2.2.2.2.1 100 1 (some "Buy") [tier1Rec] tier1Rec hf⟩

/-- **C4 counterexample**: a matched record whose venue-reported
`closedPnl` is exactly `0` does *not* yield a ClosedTrade pnl equal to the
venue's value: the code's `!== 0` guard routes it to the locally computed
`(exit − entry) × qty − fees` value (here `99/10 ≠ 0`). -/
theorem c4_counterexample_zero_reported_pnl :
    (fetchBybitCloseData zeroPnlEnv [] (some "e1") 100 1 (some "Buy") 5).1.bybitClosedPnl
      = some 0 ∧
    (fetchBybitCloseData zeroPnlEnv [] (some "e1") 100 1 (some "Buy") 5).1.closeOrderId
      = some "c1" ∧
    (fetchBybitCloseData zeroPnlEnv [] (some "e1") 100 1 (some "Buy") 5).1.pnl = 99/10 := by
  have hm : matchClosedPnl [] 100 1 (some "Buy") 5 zeroPnlEnv.closedPnlAttempts
      = some (zeroPnlRec, 1, 0) := by
    have hr : List.range maxRetries = [0, 1, 2, 3, 4, 5] := rfl
    have hf0 : closePnlAttempt [] 100 1 (some "Buy") 5 0 (some [zeroPnlRec])
        = some (zeroPnlRec, 1) := by
      norm_num [closePnlAttempt, candidateFilter, relaxTimeFilter, maxRetries, selectMatch,
        tier1Match, List.find?, List.filter, zeroPnlRec]
    simp [matchClosedPnl, hr, firstSome, zeroPnlEnv, hf0]
  simp only [fetchBybitCloseData, hm, Option.map_some']
  norm_num [zeroPnlEnv, zeroPnlRec]

/-- **C4** (amended): when the matched closed-PnL record reports a
*nonzero* `closedPnl`, the resulting close data uses the venue value
exactly, gross = net + fees, and `fees.total` is the sum of the execution
fees fetched for the entry order and the matched close order.  (When the
reported value is exactly `0`, or no record is matched, the locally
computed value is used instead — see the counterexample.) -/
theorem c4_venue_pnl_authoritative :
    ∀ (cenv : CloseEnv) (used : List String) (eid : Option String) (e q : ℚ)
      (s : Option String) (ot : ℤ) (m : ClosedPnlRec × ℕ × ℕ),
      matchClosedPnl used e q s ot cenv.closedPnlAttempts = some m →
      m.1.closedPnl ≠ 0 →
      (fetchBybitCloseData cenv used eid e q s ot).1.pnl = m.1.closedPnl ∧
      (fetchBybitCloseData cenv used eid e q s ot).1.grossPnl =
        m.1.closedPnl + (fetchBybitCloseData cenv used eid e q s ot).1.feesTotal ∧
      (fetchBybitCloseData cenv used eid e q s ot).1.feesTotal =
        (fetchBybitCloseData cenv used eid e q s ot).1.feesOpen +
          (fetchBybitCloseData cenv used eid e q s ot).1.feesClose ∧
      (∀ (x : String) (l : List ExecFill), eid = some x → cenv.entryExecs = some l →
        (fetchBybitCloseData cenv used eid e q s ot).1.feesOpen =
          (l.map (fun f => f.execFee)).sum) ∧
      (∀ l : List ExecFill, cenv.closeExecs m.1.orderId = some l →
        (fetchBybitCloseData cenv used eid e q s ot).1.feesClose =
          (l.map (fun f => f.execFee)).sum) := by
  intro cenv used eid e q s ot m hm hnz
  simp only [fetchBybitCloseData, hm, Option.map_some']
  refine ⟨?_, ?_, ?_, ?_, ?_⟩
  · simp [hnz]
  · simp [hnz]
  · trivial
  · intro x l hx hl
    simp [hx, hl]
  · intro l hl
    simp [hl]

/-- Witness for C4 (amended): a matched record reporting `closedPnl = 5`
yields exactly `pnl = 5` with `fees.total = 1/20 + 1/20`. -/
theorem c4_venue_pnl_authoritative_witness :
    matchClosedPnl [] 100 1 (some "Buy") 5 nzPnlEnv.closedPnlAttempts
      = some (nzPnlRec, 1, 0) ∧
    (nzPnlRec.closedPnl ≠ 0) ∧
    (fetchBybitCloseData nzPnlEnv [] (some "e1") 100 1 (some "Buy") 5).1.pnl
      = nzPnlRec.closedPnl := by
  have hm : matchClosedPnl [] 100 1 (some "Buy") 5 nzPnlEnv.closedPnlAttempts
      = some (nzPnlRec, 1, 0) := by
    have hr : List.range maxRetries = [0, 1, 2, 3, 4, 5] := rfl
    have hf0 : closePnlAttempt [] 100 1 (some "Buy") 5 0 (some [nzPnlRec])
        = some (nzPnlRec, 1) := by
      norm_num [closePnlAttempt, candidateFilter, relaxTimeFilter, maxRetries, selectMatch,
        tier1Match, List.find?, List.filter, nzPnlRec]
    simp [matchClosedPnl, hr, firstSome, nzPnlEnv, hf0]
  have hnz : nzPnlRec.closedPnl ≠ 0 := by norm_num [nzPnlRec]
  exact ⟨hm, hnz,
    (c4_venue_pnl_authoritative nzPnlEnv [] (some "e1") 100 1 (some "Buy") 5
      (nzPnlRec, 1, 0) hm hnz).1⟩

theorem clampSlOffset_bounds (tick price raw : ℚ) (h0 : 0 < tick)
    (h9 : tick ≤ price * (9/10)) :
    tick ≤ clampSlOffset tick price raw ∧ clampSlOffset tick price raw ≤ price * (9/10) := by
  have h0' : tick ≠ 0 := ne_of_gt h0
  simp only [clampSlOffset]
  split_ifs with hA hB hC
  · exact ⟨h9, le_refl _⟩
  · exact ⟨le_refl _, h9⟩
  · exact ⟨h9, le_refl _⟩
  · push_neg at hA hC
    exact ⟨hA h0', hC⟩

theorem clampSlOffset_upper (tick price raw : ℚ) :
    clampSlOffset tick price raw ≤ price * (9/10) := by
  simp only [clampSlOffset]
  split_ifs with hA hB hC
  · exact le_refl _
  · push_neg at hB
    exact hB
  · exact le_refl _
  · push_neg at hC
    exact hC

theorem clampSlOffset_below_tick (tick price raw : ℚ) (h : price * (9/10) < tick) :
    clampSlOffset tick price raw < tick := by
  have hu := clampSlOffset_upper tick price raw
  linarith

/-- **C5 counterexample**: the claim fails as stated.  On an instrument
whose tick size exceeds 90% of the reference price (tick 1, price 1) the
upper clamp is applied *after* the tick floor, so the resulting stop
distance (9/10) is strictly below one tick. -/
theorem c5_counterexample_offset_below_tick :
    entrySlOffset sampleCfg coarseInst 100 1 10 1 = 9/10 ∧
    entrySlOffset sampleCfg coarseInst 100 1 10 1 < coarseInst.tickSize := by
  norm_num [entrySlOffset, clampSlOffset, getMaxLossPerPosition, roundQty, sampleCfg, coarseInst]

/-- **C5** (amended): in all four stop-offset paths (fresh entry, DCA add,
shared-risk tightening, naked-position protection) the computed stop
distance is at most `0.9 × referencePrice` unconditionally; it is at
least one tick whenever the instrument's tick size is positive and at
most `0.9 × referencePrice`; and whenever the tick size exceeds
`0.9 × referencePrice` the 90% cap is applied last, so the distance
falls strictly below one tick (see the counterexample). -/
theorem c5_sl_offset_bounds :
    (∀ (cfg : Config) (inst : Instrument) (bal : ℚ) (n : ℕ) (budget price : ℚ),
      entrySlOffset cfg inst bal n budget price ≤ price * (9/10) ∧
      (0 < inst.tickSize → inst.tickSize ≤ price * (9/10) →
        inst.tickSize ≤ entrySlOffset cfg inst bal n budget price) ∧
      (price * (9/10) < inst.tickSize →
        entrySlOffset cfg inst bal n budget price < inst.tickSize)) ∧
    (∀ (cfg : Config) (inst : Instrument) (bal : ℚ) (n : ℕ) (budget newAvg : ℚ),
      dcaSlOffset cfg inst bal n budget newAvg ≤ newAvg * (9/10) ∧
      (0 < inst.tickSize → inst.tickSize ≤ newAvg * (9/10) →
        inst.tickSize ≤ dcaSlOffset cfg inst bal n budget newAvg) ∧
      (newAvg * (9/10) < inst.tickSize →
        dcaSlOffset cfg inst bal n budget newAvg < inst.tickSize)) ∧
    (∀ (cfg : Config) (inst : Instrument) (bal : ℚ) (n : ℕ) (pos : Position),
      tightenSlOffset cfg inst bal n pos ≤ pos.entryPrice * (9/10) ∧
      (0 < inst.tickSize → inst.tickSize ≤ pos.entryPrice * (9/10) →
        inst.tickSize ≤ tightenSlOffset cfg inst bal n pos) ∧
      (pos.entryPrice * (9/10) < inst.tickSize →
        tightenSlOffset cfg inst bal n pos < inst.tickSize)) ∧
    (∀ (cfg : Config) (inst : Instrument) (atr : Option ℚ) (bal : ℚ) (n : ℕ)
       (entry qty : ℚ),
      protectionSlOffset cfg inst atr bal n entry qty ≤ entry * (9/10) ∧
      (0 < inst.tickSize → inst.tickSize ≤ entry * (9/10) →
        inst.tickSize ≤ protectionSlOffset cfg inst atr bal n entry qty) ∧
      (entry * (9/10) < inst.tickSize →
        protectionSlOffset cfg inst atr bal n entry qty < inst.tickSize)) := by
  refine ⟨?_, ?_, ?_, ?_⟩
  · intro cfg inst bal n budget price
    exact ⟨clampSlOffset_upper inst.tickSize price _,
      fun h0 h9 => (clampSlOffset_bounds inst.tickSize price _ h0 h9).1,
      fun hd => clampSlOffset_below_tick inst.tickSize price _ hd⟩
  · intro cfg inst bal n budget newAvg
    exact ⟨clampSlOffset_upper inst.tickSize newAvg _,
      fun h0 h9 => (clampSlOffset_bounds inst.tickSize newAvg _ h0 h9).1,
      fun hd => clampSlOffset_below_tick inst.tickSize newAvg _ hd⟩
  · intro cfg inst bal n pos
    exact ⟨clampSlOffset_upper inst.tickSize pos.entryPrice _,
      fun h0 h9 => (clampSlOffset_bounds inst.tickSize pos.entryPrice _ h0 h9).1,
      fun hd => clampSlOffset_below_tick inst.tickSize pos.entryPrice _ hd⟩
  · intro cfg inst atr bal n entry qty
    exact ⟨clampSlOffset_upper inst.tickSize entry _,
      fun h0 h9 => (clampSlOffset_bounds inst.tickSize entry _ h0 h9).1,
      fun hd => clampSlOffset_below_tick inst.tickSize entry _ hd⟩

/-- Witness for C5 (amended): with tick 0.01 at reference price 100 the
entry-path offset is within `[1 tick, 0.9 × price]`, and on the
degenerate tick-1/price-1 instrument the offset is capped below one
tick. -/
theorem c5_sl_offset_bounds_witness :
    entrySlOffset sampleCfg sampleInst 1000 1 500 100 ≤ 100 * (9/10) ∧
    (0 : ℚ) < sampleInst.tickSize ∧ sampleInst.tickSize ≤ 100 * (9/10) ∧
    sampleInst.tickSize ≤ entrySlOffset sampleCfg sampleInst 1000 1 500 100 ∧
    (1 : ℚ) * (9/10) < coarseInst.tickSize ∧
    entrySlOffset sampleCfg coarseInst 100 1 10 1 < coarseInst.tickSize := by
  have h0 : (0 : ℚ) < sampleInst.tickSize := by norm_num [sampleInst]
  have h9 : sampleInst.tickSize ≤ (100 : ℚ) * (9/10) := by norm_num [sampleInst]
  have hd : (1 : ℚ) * (9/10) < coarseInst.tickSize := by norm_num [coarseInst]
  obtain ⟨hu, hl, _⟩ := c5_sl_offset_bounds.1 sampleCfg sampleInst 1000 1 500 100
  obtain ⟨_, _, hb⟩ := c5_sl_offset_bounds.1 sampleCfg coarseInst 100 1 10 1
  exact ⟨hu, h0, h9, hl h0 h9, hd, hb hd⟩

set_option maxHeartbeats 1600000 in
theorem executeTradeBody_filled_inv (cfg : Config) (env : Env) (st : ExecState)
    (ev : LiqEvent) (p : Position) (st2 : ExecState)
    (h : executeTradeBody cfg env st ev = (.filled p, st2)) :
    (jsTruthy p.trailingStop = true → p.tpPrice = none) ∧
    p.dcaLevel = 0 ∧ st2.pendingSymbols = st.pendingSymbols := by
  unfold executeTradeBody at h
  cases hin : env.insts ev.symbol with
  | none => rw [hin] at h; exact absurd h (by simp)
  | some inst =>
    rw [hin] at h
    simp only [] at h
    by_cases h1 : isBlocked inst = true
    · rw [if_pos h1] at h; exact absurd h (by simp)
    · rw [if_neg h1] at h
      by_cases h2 : env.lowVolume = true
      · rw [if_pos h2] at h; exact absurd h (by simp)
      · rw [if_neg h2] at h
        by_cases h3 : st.initialBalance ≤ 0
        · rw [if_pos h3] at h; exact absurd h (by simp)
        · rw [if_neg h3] at h
          split at h
          · exact absurd h (by simp)
          · cases hord : placeEntryOrder cfg env <;> rw [hord] at h
            · simp only [Prod.mk.injEq, Outcome.filled.injEq] at h
              obtain ⟨rfl, rfl⟩ := h
              refine ⟨?_, rfl, rfl⟩
              intro htr
              exact if_pos htr
            · exact absurd h (by simp)
            · exact absurd h (by simp)
            · exact absurd h (by simp)
            · exact absurd h (by simp)

set_option maxHeartbeats 1600000 in
theorem executeTradeBody_pending (cfg : Config) (env : Env) (st : ExecState)
    (ev : LiqEvent) :
    (executeTradeBody cfg env st ev).2.pendingSymbols = st.pendingSymbols := by
  unfold executeTradeBody
  cases hin : env.insts ev.symbol with
  | none => rfl
  | some inst =>
    simp only []
    by_cases h1 : isBlocked inst = true
    · rw [if_pos h1]
    · rw [if_neg h1]
      by_cases h2 : env.lowVolume = true
      · rw [if_pos h2]
      · rw [if_neg h2]
        by_cases h3 : st.initialBalance ≤ 0
        · rw [if_pos h3]
        · rw [if_neg h3]
          by_cases h4 : roundQty inst (max (cfg.positionSizeUsd * cfg.leverage)
              (st.initialBalance * (cfg.minPositionPct / 100)) * DCA_SPLITS.getD 0 0 /
              ev.price) < inst.minQty
          · rw [if_pos h4]
          · rw [if_neg h4]
            cases placeEntryOrder cfg env <;> rfl

theorem executeTradeRest_pending (cfg : Config) (env : Env) (st : ExecState)
    (ev : LiqEvent) :
    (executeTradeRest cfg env st ev).2.pendingSymbols =
      st.pendingSymbols.erase ev.symbol := by
  unfold executeTradeRest
  simp only []
  rw [executeTradeBody_pending]

set_option maxHeartbeats 1600000 in
theorem executeTradeBody_filled_spec (cfg : Config) (env : Env) (st : ExecState)
    (ev : LiqEvent) (inst : Instrument)
    (hinst : env.insts ev.symbol = some inst)
    (hblk : isBlocked inst = false)
    (hlv : env.lowVolume = false)
    (hbal : ¬ st.initialBalance ≤ 0)
    (hord : placeEntryOrder cfg env = .placed)
    (hqty : ¬ roundQty inst (max (cfg.positionSizeUsd * cfg.leverage)
        (st.initialBalance * (cfg.minPositionPct / 100)) * DCA_SPLITS.getD 0 0 / ev.price)
        < inst.minQty) :
    ∃ p st2, executeTradeBody cfg env st ev = (.filled p, st2) ∧
      p.qty = roundQty inst (max (cfg.positionSizeUsd * cfg.leverage)
        (st.initialBalance * (cfg.minPositionPct / 100)) * DCA_SPLITS.getD 0 0 / ev.price) ∧
      p.totalBudget = max (cfg.positionSizeUsd * cfg.leverage)
        (st.initialBalance * (cfg.minPositionPct / 100)) ∧
      p.side = (if ev.side = "Buy" then "Buy" else "Sell") ∧
      p.symbol = ev.symbol ∧ p.dcaLevel = 0 ∧
      st2.activePositions =
        (if 1 < (setPos st.activePositions ev.symbol p).length then
          tightenAllSLs cfg env.insts env.tightenOk st.initialBalance
            (setPos st.activePositions ev.symbol p).length
            (setPos st.activePositions ev.symbol p)
        else setPos st.activePositions ev.symbol p) := by
  unfold executeTradeBody
  rw [hinst]
  simp only []
  rw [if_neg (by simp [hblk]), if_neg (by simp [hlv]), if_neg hbal, if_neg hqty, hord]
  exact ⟨_, _, rfl, rfl, rfl, rfl, rfl, rfl, rfl⟩

set_option maxHeartbeats 1600000 in
theorem executeTradeBody_minqty_skip (cfg : Config) (env : Env) (st : ExecState)
    (ev : LiqEvent) (inst : Instrument)
    (hinst : env.insts ev.symbol = some inst)
    (hblk : isBlocked inst = false)
    (hlv : env.lowVolume = false)
    (hbal : ¬ st.initialBalance ≤ 0)
    (hlt : roundQty inst (max (cfg.positionSizeUsd * cfg.leverage)
        (st.initialBalance * (cfg.minPositionPct / 100)) * DCA_SPLITS.getD 0 0 / ev.price)
        < inst.minQty) :
    executeTradeBody cfg env st ev = (.skipped "Qty below minimum", st) := by
  unfold executeTradeBody
  rw [hinst]
  simp only []
  rw [if_neg (by simp [hblk]), if_neg (by simp [hlv]), if_neg hbal, if_pos hlt]

theorem executeTradeSyncHead_locked (cfg : Config) (st : ExecState) (ev : LiqEvent)
    (hcap : st.activePositions.length + st.pendingSymbols.length < cfg.maxPositions)
    (hpend : ev.symbol ∉ st.pendingSymbols)
    (hpos : lookupPos st.activePositions ev.symbol = none) :
    executeTradeSyncHead cfg st ev =
      (.locked, { st with pendingSymbols := ev.symbol :: st.pendingSymbols }) := by
  unfold executeTradeSyncHead
  rw [if_neg (by omega), if_neg hpend, hpos]

/-- **C6 counterexample**: the claim fails as stated.  A remote position
carrying both a fixed take-profit and a trailing stop is adopted into the
Ledger verbatim by `syncPositions`, so the adopted Position has a fixed
TP (`some 5`) and a trailing distance (`some 2`) simultaneously. -/
theorem c6_counterexample_adopted_position_has_both :
    (lookupPos (adoptUntracked sampleCfg sampleMonEnv [] [] [remotePosB]) "BBB").map
      (fun p => (p.tpPrice, p.trailingStop)) = some (some 5, some 2) := by
  norm_num [adoptUntracked, adoptPosition, lookupPos, setPos, jsNum, jsTruthy,
    cacheRoundPrice, remotePosB, sampleMonEnv, List.foldl]

/-- **C6** (amended): positions created by the engine's own fresh-entry
path never have a fixed TP and a trailing distance simultaneously:
whenever the filled position carries a (truthy) trailing distance, its
`tpPrice` is null.  Positions adopted from the venue mirror the remote
state verbatim and can carry both (see the counterexample). -/
theorem c6_trailing_excludes_fixed_tp :
    ∀ (cfg : Config) (env : Env) (st : ExecState) (ev : LiqEvent) (p : Position)
      (st2 : ExecState),
      executeTradeBody cfg env st ev = (.filled p, st2) →
      jsTruthy p.trailingStop = true → p.tpPrice = none :=
  fun cfg env st ev p st2 h htr =>
    (executeTradeBody_filled_inv cfg env st ev p st2 h).1 htr

/-- Witness for C6 (amended): the concrete fresh entry fills with a
trailing stop of 3/4 and no fixed TP. -/
theorem c6_trailing_excludes_fixed_tp_witness :
    executeTradeBody sampleCfg sampleEnv sampleState sampleEvent =
      (.filled sampleFilledPos, sampleFilledState) ∧
    jsTruthy sampleFilledPos.trailingStop = true ∧
    sampleFilledPos.tpPrice = none := by
  have h : executeTradeBody sampleCfg sampleEnv sampleState sampleEvent =
      (.filled sampleFilledPos, sampleFilledState) := by
    norm_num [executeTradeBody, sampleCfg, sampleEnv, sampleState, sampleEvent, sampleInst,
      sampleFilledPos, sampleFilledState, placeEntryOrder, roundQty, roundPrice, isBlocked,
      entrySlOffset, clampSlOffset, getMaxLossPerPosition, DCA_SPLITS, jsTruthy, setPos,
      tightenAllSLs]
  refine ⟨h, by norm_num [sampleFilledPos, jsTruthy], ?_⟩
  exact c6_trailing_excludes_fixed_tp sampleCfg sampleEnv sampleState sampleEvent
    sampleFilledPos sampleFilledState h (by norm_num [sampleFilledPos, jsTruthy])

/-- **C7**: for a fresh entry the total budget is
`max(configuredUSD × leverage, minPercentOfBalance)`, the first order's
quantity is `budget × firstSplit / price` rounded down to the lot step,
the entry is skipped when that quantity is below the instrument minimum,
and a qualifying long liquidation yields a Buy position. -/
theorem c7_fresh_entry_sizing (cfg : Config) (env : Env) (st : ExecState)
    (ev : LiqEvent) (inst : Instrument)
    (hcap : st.activePositions.length + st.pendingSymbols.length < cfg.maxPositions)
    (hpend : ev.symbol ∉ st.pendingSymbols)
    (hpos : lookupPos st.activePositions ev.symbol = none)
    (hinst : env.insts ev.symbol = some inst)
    (hblk : isBlocked inst = false)
    (hlv : env.lowVolume = false)
    (hbal : 0 < st.initialBalance)
    (hord : placeEntryOrder cfg env = .placed) :
    (¬ roundQty inst (max (cfg.positionSizeUsd * cfg.leverage)
        (st.initialBalance * (cfg.minPositionPct / 100)) * DCA_SPLITS.getD 0 0 / ev.price)
        < inst.minQty →
      ∃ p, (executeTrade cfg env st ev).1 = .filled p ∧
        p.qty = roundQty inst (max (cfg.positionSizeUsd * cfg.leverage)
          (st.initialBalance * (cfg.minPositionPct / 100)) * DCA_SPLITS.getD 0 0 / ev.price) ∧
        p.totalBudget = max (cfg.positionSizeUsd * cfg.leverage)
          (st.initialBalance * (cfg.minPositionPct / 100)) ∧
        p.side = (if ev.side = "Buy" then "Buy" else "Sell")) ∧
    (roundQty inst (max (cfg.positionSizeUsd * cfg.leverage)
        (st.initialBalance * (cfg.minPositionPct / 100)) * DCA_SPLITS.getD 0 0 / ev.price)
        < inst.minQty →
      (executeTrade cfg env st ev).1 = .skipped "Qty below minimum") := by
  have hbal' : ¬ st.initialBalance ≤ 0 := not_le.mpr hbal
  have hhead := executeTradeSyncHead_locked cfg st ev hcap hpend hpos
  constructor
  · intro hqty
    obtain ⟨p, st2, heq, hq, hb, hs, _, _, _⟩ :=
      executeTradeBody_filled_spec cfg env
        { st with pendingSymbols := ev.symbol :: st.pendingSymbols } ev inst
        hinst hblk hlv hbal' hord hqty
    refine ⟨p, ?_, hq, hb, hs⟩
    unfold executeTrade
    rw [hhead]
    unfold executeTradeRest
    simp only [heq]
  · intro hlt
    have hskip := executeTradeBody_minqty_skip cfg env
      { st with pendingSymbols := ev.symbol :: st.pendingSymbols } ev inst
      hinst hblk hlv hbal' hlt
    unfold executeTrade
    rw [hhead]
    unfold executeTradeRest
    simp only [hskip]

/-- Witness for C7 (Scenario A): a $50,000 long liquidation at price 100
with a $1000 balance opens a Buy position of 0.5 units
(= 500 budget × 10% first split ÷ 100, on a 0.1 lot step). -/
theorem c7_fresh_entry_sizing_witness :
    (executeTrade sampleCfg sampleEnv sampleState sampleEvent).1 =
      .filled sampleFilledPos ∧
    sampleFilledPos.qty = 1/2 ∧ sampleFilledPos.side = "Buy" ∧
    sampleFilledPos.totalBudget = 500 := by
  have h := (c7_fresh_entry_sizing sampleCfg sampleEnv sampleState sampleEvent sampleInst
    (by norm_num [sampleState, sampleCfg])
    (by simp [sampleState, sampleEvent])
    (by simp [sampleState, sampleEvent, lookupPos])
    (by norm_num [sampleEnv, sampleEvent])
    (by norm_num [sampleInst, isBlocked])
    (by norm_num [sampleEnv])
    (by norm_num [sampleState])
    (by norm_num [placeEntryOrder, sampleCfg, sampleEnv])).1
    (by norm_num [roundQty, sampleInst, sampleCfg, sampleState, sampleEvent, DCA_SPLITS])
  obtain ⟨p, hfill, hq, hb, hs⟩ := h
  have hval : (executeTrade sampleCfg sampleEnv sampleState sampleEvent).1 =
      .filled sampleFilledPos := by
    norm_num [executeTrade, executeTradeSyncHead, executeTradeRest, executeTradeBody,
      sampleCfg, sampleEnv, sampleState, sampleEvent, sampleInst, sampleFilledPos,
      placeEntryOrder, roundQty, roundPrice, isBlocked, entrySlOffset, clampSlOffset,
      getMaxLossPerPosition, DCA_SPLITS, jsTruthy, setPos, tightenAllSLs, lookupPos]
  refine ⟨hval, ?_, ?_, ?_⟩ <;> norm_num [sampleFilledPos]

/-- **C1**: the per-symbol lock is acquired synchronously by the head of
`executeTrade` (before any suspension point); a second same-tick event on
the same symbol is skipped with the pending reason and leaves the state
untouched; the first invocation fills; the lock is held exactly once while
pending, is removed by the `finally` of every exit path (success, skip,
failure, thrown error), and is gone after the fill completes. -/
theorem c1_per_symbol_lock_exclusive (cfg : Config) (env : Env) (st : ExecState)
    (ev ev2 : LiqEvent) (inst : Instrument)
    (hsym : ev2.symbol = ev.symbol)
    (hcap : st.activePositions.length + (st.pendingSymbols.length + 1) < cfg.maxPositions)
    (hpend : ev.symbol ∉ st.pendingSymbols)
    (hpos : lookupPos st.activePositions ev.symbol = none)
    (hinst : env.insts ev.symbol = some inst)
    (hblk : isBlocked inst = false)
    (hlv : env.lowVolume = false)
    (hbal : 0 < st.initialBalance)
    (hord : placeEntryOrder cfg env = .placed)
    (hqty : ¬ roundQty inst (max (cfg.positionSizeUsd * cfg.leverage)
        (st.initialBalance * (cfg.minPositionPct / 100)) * DCA_SPLITS.getD 0 0 / ev.price)
        < inst.minQty) :
    (executeTradeSyncHead cfg st ev).1 = .locked ∧
    (executeTradeSyncHead cfg st ev).2.pendingSymbols.count ev.symbol = 1 ∧
    executeTradeSyncHead cfg (executeTradeSyncHead cfg st ev).2 ev2 =
      (.skip "Trade pending on symbol", (executeTradeSyncHead cfg st ev).2) ∧
    (∃ p, (executeTradeRest cfg env (executeTradeSyncHead cfg st ev).2 ev).1 = .filled p) ∧
    (∀ (env' : Env) (st' : ExecState),
      (executeTradeRest cfg env' st' ev).2.pendingSymbols =
        st'.pendingSymbols.erase ev.symbol) ∧
    ev.symbol ∉ (executeTradeRest cfg env (executeTradeSyncHead cfg st ev).2 ev).2.pendingSymbols := by
  have hbal' : ¬ st.initialBalance ≤ 0 := not_le.mpr hbal
  have hhead := executeTradeSyncHead_locked cfg st ev (by omega) hpend hpos
  have hcount : st.pendingSymbols.count ev.symbol = 0 := List.count_eq_zero.mpr hpend
  refine ⟨by rw [hhead], ?_, ?_, ?_, ?_, ?_⟩
  · rw [hhead]
    simp [List.count_cons, hcount]
  · rw [hhead]
    unfold executeTradeSyncHead
    rw [if_neg (by simp only [List.length_cons]; omega),
      if_pos (by rw [hsym]; exact List.mem_cons_self _ _)]
  · obtain ⟨p, st2, heq, _⟩ :=
      executeTradeBody_filled_spec cfg env
        { st with pendingSymbols := ev.symbol :: st.pendingSymbols } ev inst
        hinst hblk hlv hbal' hord hqty
    refine ⟨p, ?_⟩
    rw [hhead]
    unfold executeTradeRest
    simp only [heq]
  · intro env' st'
    exact executeTradeRest_pending cfg env' st' ev
  · rw [hhead, executeTradeRest_pending]
    simp only [List.erase_cons_head]
    exact hpend

/-- Witness for C1 (Scenario B): with the concrete fixtures the first
event locks and fills while the second same-tick event is skipped as
pending. -/
theorem c1_per_symbol_lock_exclusive_witness :
    (executeTradeSyncHead sampleCfg sampleState sampleEvent).1 = .locked ∧
    executeTradeSyncHead sampleCfg (executeTradeSyncHead sampleCfg sampleState sampleEvent).2
        sampleEvent2 =
      (.skip "Trade pending on symbol",
        (executeTradeSyncHead sampleCfg sampleState sampleEvent).2) ∧
    sampleEvent.symbol ∉
      (executeTradeRest sampleCfg sampleEnv
        (executeTradeSyncHead sampleCfg sampleState sampleEvent).2 sampleEvent).2.pendingSymbols := by
  have h := c1_per_symbol_lock_exclusive sampleCfg sampleEnv sampleState sampleEvent
    sampleEvent2 sampleInst
    (by norm_num [sampleEvent, sampleEvent2])
    (by norm_num [sampleState, sampleCfg])
    (by simp [sampleState, sampleEvent])
    (by simp [sampleState, sampleEvent, lookupPos])
    (by norm_num [sampleEnv, sampleEvent])
    (by norm_num [sampleInst, isBlocked])
    (by norm_num [sampleEnv])
    (by norm_num [sampleState])
    (by norm_num [placeEntryOrder, sampleCfg, sampleEnv])
    (by norm_num [roundQty, sampleInst, sampleCfg, sampleState, sampleEvent, DCA_SPLITS])
  exact ⟨h.1, h.2.2.1, h.2.2.2.2.2⟩

/-- Witness for C2 (Scenario E): a backfill record whose close id `"c9"`
is already consumed is skipped, leaving the monitor state unchanged. -/
theorem c2_close_order_id_consumed_once_witness :
    usedRec.orderId ∈ usedMonState.usedCloseOrderIds ∧
    reconcileStep sampleReconEnv [] usedMonState usedRec = (usedMonState, false) ∧
    (reconcileStep sampleReconEnv [] usedMonState usedRec).1.pnlHistory.length =
      usedMonState.pnlHistory.length := by
  have hm : usedRec.orderId ∈ usedMonState.usedCloseOrderIds := by
    simp [usedRec, usedMonState]
  have h := (c2_close_order_id_consumed_once.2.2) sampleReconEnv [] usedMonState usedRec hm
  exact ⟨hm, h.1, h.2.1⟩

set_option maxHeartbeats 1600000 in
theorem executeDCABody_filled_spec (cfg : Config) (env : Env) (st : ExecState)
    (ev : LiqEvent) (pos : Position) (inst : Instrument)
    (hinst : env.insts ev.symbol = some inst)
    (hbudget : ¬ pos.totalBudget ≤ 0)
    (hord : placeEntryOrder cfg env = .placed)
    (hqty : ¬ roundQty inst
        (pos.totalBudget * DCA_SPLITS.getD (pos.dcaLevel + 1) 0 / ev.price) < inst.minQty) :
    ∃ p', executeDCABody cfg env st ev pos =
        (.filled p', { st with activePositions := setPos st.activePositions ev.symbol p' }) ∧
      p'.dcaLevel = pos.dcaLevel + 1 ∧
      p'.lastEntryPrice = ev.price ∧
      (env.fillPosition = none →
        p'.qty = pos.qty + roundQty inst
          (pos.totalBudget * DCA_SPLITS.getD (pos.dcaLevel + 1) 0 / ev.price)) := by
  unfold executeDCABody
  rw [hinst]
  simp only []
  rw [if_neg hbudget, if_neg hqty, hord]
  refine ⟨_, rfl, rfl, rfl, ?_⟩
  intro hfp
  rw [hfp]
  rfl

theorem executeTradeSyncHead_dca_full (cfg : Config) (st : ExecState) (ev : LiqEvent)
    (pos : Position)
    (hcap : st.activePositions.length + st.pendingSymbols.length < cfg.maxPositions)
    (hpend : ev.symbol ∉ st.pendingSymbols)
    (hpos : lookupPos st.activePositions ev.symbol = some pos)
    (hlvl : DCA_SPLITS.length - 1 ≤ pos.dcaLevel) :
    executeTradeSyncHead cfg st ev = (.skip "DCA fully filled", st) := by
  unfold executeTradeSyncHead
  rw [if_neg (by omega), if_neg hpend, hpos]
  simp only []
  rw [if_pos hlvl]

theorem executeTradeSyncHead_cases (cfg : Config) (st : ExecState) (ev : LiqEvent) :
    (∃ r, executeTradeSyncHead cfg st ev = (.skip r, st)) ∨
    (∃ pos, lookupPos st.activePositions ev.symbol = some pos ∧
      pos.dcaLevel < DCA_SPLITS.length - 1 ∧
      executeTradeSyncHead cfg st ev = (.dcaCheck pos, st)) ∨
    (lookupPos st.activePositions ev.symbol = none ∧
      executeTradeSyncHead cfg st ev =
        (.locked, { st with pendingSymbols := ev.symbol :: st.pendingSymbols })) := by
  unfold executeTradeSyncHead
  split_ifs with h1 h2
  · exact Or.inl ⟨_, rfl⟩
  · exact Or.inl ⟨_, rfl⟩
  · cases hp : lookupPos st.activePositions ev.symbol with
    | some pos =>
      simp only []
      split_ifs with h3
      · exact Or.inl ⟨_, rfl⟩
      · exact Or.inr (Or.inl ⟨pos, rfl, by omega, rfl⟩)
    | none => exact Or.inr (Or.inr ⟨rfl, rfl⟩)

theorem executeTradeDcaGate_cases (cfg : Config) (env : Env) (st : ExecState)
    (ev : LiqEvent) (pos : Position) :
    (∃ r, executeTradeDcaGate cfg env st ev pos = (.skipped r, st)) ∨
    executeTradeDcaGate cfg env st ev pos = executeDCA cfg env st ev pos := by
  unfold executeTradeDcaGate
  cases env.vwap with
  | some vs =>
    simp only []
    split_ifs <;> first
      | exact Or.inr rfl
      | exact Or.inl ⟨_, rfl⟩
  | none =>
    simp only []
    split_ifs <;> first
      | exact Or.inr rfl
      | exact Or.inl ⟨_, rfl⟩

set_option maxHeartbeats 1600000 in
theorem executeDCA_positions (cfg : Config) (env : Env) (st : ExecState)
    (ev : LiqEvent) (pos : Position) :
    (executeDCA cfg env st ev pos).2.activePositions = st.activePositions ∨
    ∃ p', (executeDCA cfg env st ev pos).2.activePositions =
        setPos st.activePositions ev.symbol p' ∧
      p'.dcaLevel = pos.dcaLevel + 1 := by
  unfold executeDCA executeDCABody
  cases env.insts ev.symbol with
  | none => exact Or.inl rfl
  | some inst =>
    simp only []
    by_cases h1 : pos.totalBudget ≤ 0
    · rw [if_pos h1]
      exact Or.inl rfl
    · rw [if_neg h1]
      by_cases h2 : roundQty inst
          (pos.totalBudget * DCA_SPLITS.getD (pos.dcaLevel + 1) 0 / ev.price) < inst.minQty
      · rw [if_pos h2]
        exact Or.inl rfl
      · rw [if_neg h2]
        cases placeEntryOrder cfg env
        · exact Or.inr ⟨_, rfl, rfl⟩
        · exact Or.inl rfl
        · exact Or.inl rfl
        · exact Or.inl rfl
        · exact Or.inl rfl

/-- **C8**: a DCA add at the final level is rejected; a successful add
submits `totalBudget × splits[L+1]` worth (rounded to lot step), advances
`dcaLevel` to `L+1` and sets `lastEntryPrice` to the triggering
liquidation price (not the fill price); across any `executeTrade`
invocation the tracked position's `dcaLevel` either stays put or steps to
`L+1` with `L+1 ≤ len(splits)−1`, so it is monotone and bounded. -/
theorem c8_dca_schedule :
    (∀ (cfg : Config) (env : Env) (st : ExecState) (ev : LiqEvent) (pos : Position),
      st.activePositions.length + st.pendingSymbols.length < cfg.maxPositions →
      ev.symbol ∉ st.pendingSymbols →
      lookupPos st.activePositions ev.symbol = some pos →
      DCA_SPLITS.length - 1 ≤ pos.dcaLevel →
      executeTrade cfg env st ev = (.skipped "DCA fully filled", st)) ∧
    (∀ (cfg : Config) (env : Env) (st : ExecState) (ev : LiqEvent) (pos : Position)
       (inst : Instrument),
      env.insts ev.symbol = some inst →
      ¬ pos.totalBudget ≤ 0 →
      placeEntryOrder cfg env = .placed →
      env.fillPosition = none →
      ¬ roundQty inst (pos.totalBudget * DCA_SPLITS.getD (pos.dcaLevel + 1) 0 / ev.price)
        < inst.minQty →
      ∃ p', (executeDCA cfg env st ev pos).1 = .filled p' ∧
        lookupPos (executeDCA cfg env st ev pos).2.activePositions ev.symbol = some p' ∧
        p'.dcaLevel = pos.dcaLevel + 1 ∧
        p'.lastEntryPrice = ev.price ∧
        p'.qty = pos.qty + roundQty inst
          (pos.totalBudget * DCA_SPLITS.getD (pos.dcaLevel + 1) 0 / ev.price)) ∧
    (∀ (cfg : Config) (env : Env) (st : ExecState) (ev : LiqEvent) (pos p' : Position),
      lookupPos st.activePositions ev.symbol = some pos →
      lookupPos (executeTrade cfg env st ev).2.activePositions ev.symbol = some p' →
      p'.dcaLevel = pos.dcaLevel ∨
        (pos.dcaLevel + 1 ≤ DCA_SPLITS.length - 1 ∧ p'.dcaLevel = pos.dcaLevel + 1)) := by
  refine ⟨?_, ?_, ?_⟩
  · intro cfg env st ev pos hcap hpend hpos hlvl
    unfold executeTrade
    rw [executeTradeSyncHead_dca_full cfg st ev pos hcap hpend hpos hlvl]
  · intro cfg env st ev pos inst hinst hbudget hord hfp hqty
    obtain ⟨p', hbody, hlvl, hlast, hq⟩ :=
      executeDCABody_filled_spec cfg env
        { st with pendingSymbols := ev.symbol :: st.pendingSymbols } ev pos inst
        hinst hbudget hord hqty
    refine ⟨p', ?_, ?_, hlvl, hlast, hq hfp⟩
    · unfold executeDCA
      simp only [hbody]
    · unfold executeDCA
      simp only [hbody]
      exact lookupPos_setPos_self _ _ _
  · intro cfg env st ev pos p' hpos hpos'
    rcases executeTradeSyncHead_cases cfg st ev with ⟨r, hh⟩ | ⟨pos0, hp0, hlt, hh⟩ | ⟨hnone, hh⟩
    · unfold executeTrade at hpos'
      rw [hh] at hpos'
      simp only [] at hpos'
      rw [hpos] at hpos'
      simp only [Option.some.injEq] at hpos'
      exact Or.inl (by rw [← hpos'])
    · have hpp : pos0 = pos := by
        rw [hpos] at hp0
        exact ((Option.some.injEq _ _).mp hp0).symm
      subst hpp
      unfold executeTrade at hpos'
      rw [hh] at hpos'
      simp only [] at hpos'
      rcases executeTradeDcaGate_cases cfg env st ev pos0 with ⟨r, hg⟩ | hg
      · rw [hg] at hpos'
        simp only [] at hpos'
        rw [hpos] at hpos'
        simp only [Option.some.injEq] at hpos'
        exact Or.inl (by rw [← hpos'])
      · rw [hg] at hpos'
        rcases executeDCA_positions cfg env st ev pos0 with ha | ⟨q', ha, hq⟩
        · rw [ha, hpos] at hpos'
          simp only [Option.some.injEq] at hpos'
          exact Or.inl (by rw [← hpos'])
        · rw [ha, lookupPos_setPos_self] at hpos'
          simp only [Option.some.injEq] at hpos'
          refine Or.inr ⟨by omega, ?_⟩
          rw [← hpos']
          exact hq
    · rw [hpos] at hnone
      cases hnone

/-- Witness for C8: at the final level the add is skipped; from level 0 a
concrete successful add advances to level 1, sizes the order by
`500 × splits[1] = 100` notional (qty 1 at price 95), and stores the
liquidation price 95 as `lastEntryPrice`. -/
theorem c8_dca_schedule_witness :
    executeTrade sampleCfg sampleEnv dcaFullState dcaEvent =
      (.skipped "DCA fully filled", dcaFullState) ∧
    (executeDCA sampleCfg sampleEnv dcaState dcaEvent dcaPos).1 =
      .filled { dcaPos with
        entryPrice := 95, qty := 3/2, slPrice := some (4269/50),
        dcaLevel := 1, lastEntryPrice := 95 } := by
  constructor
  · exact c8_dca_schedule.1 sampleCfg sampleEnv dcaFullState dcaEvent dcaFullPos
      (by norm_num [dcaFullState, sampleCfg])
      (by simp [dcaFullState, dcaEvent])
      (by simp [dcaFullState, dcaEvent, lookupPos])
      (by norm_num [dcaFullPos, DCA_SPLITS])
  · norm_num [executeDCA, executeDCABody, sampleCfg, sampleEnv, dcaState, dcaEvent, dcaPos,
      sampleInst, placeEntryOrder, roundQty, roundPrice, dcaSlOffset, clampSlOffset,
      getMaxLossPerPosition, DCA_SPLITS, jsTruthy, jsOr, setPos]

/-- **C9 counterexample**: the claim fails as stated for adoption.  When
`syncPositions` adopts an untracked remote position (raising the open
count to 2), the pre-existing position's stop-loss is left at 90 even
though the shared-risk recompute at the new count — the executor's own
`tightenOne` — would resubmit 97.5; adoption never invokes the
tightening. -/
theorem c9_counterexample_adoption_does_not_tighten :
    (lookupPos (adoptUntracked sampleCfg sampleMonEnv [("AAA", ledgerPosA)] [] [remotePosB])
        "AAA").map (fun p => p.slPrice) = some (some 90) ∧
    (lookupPos (adoptUntracked sampleCfg sampleMonEnv [("AAA", ledgerPosA)] [] [remotePosB])
        "BBB").isSome = true ∧
    (tightenOne sampleCfg (fun _ => some sampleInst) (fun _ => true) 100 2
        ("AAA", ledgerPosA)).2.slPrice = some (195/2) ∧
    ((some ((195 : ℚ)/2) : Option ℚ) ≠ some 90) := by
  refine ⟨?_, ?_, ?_, by norm_num⟩
  · norm_num [adoptUntracked, adoptPosition, lookupPos, setPos, jsNum, jsTruthy,
      cacheRoundPrice, remotePosB, ledgerPosA, sampleMonEnv, List.foldl]
  · norm_num [adoptUntracked, adoptPosition, lookupPos, setPos, jsNum, jsTruthy,
      cacheRoundPrice, remotePosB, ledgerPosA, sampleMonEnv, List.foldl]
    split <;> rfl
  · norm_num [tightenOne, tightenSlOffset, clampSlOffset, getMaxLossPerPosition,
      roundQty, roundPrice, sampleCfg, sampleInst, ledgerPosA]

/-- **C9** (amended): shared-risk tightening runs only on the fresh-entry
path: a fresh fill that brings the ledger above one position maps
`tightenOne` over the whole ledger at the new count, and `tightenOne`
resubmits the recomputed stop exactly when it differs from the stored one
and the venue call succeeds; DCA adds recompute only their own symbol and
adoption of an untracked remote position triggers no tightening at all
(see the counterexample). -/
theorem c9_shared_risk_tightening :
    (∀ (cfg : Config) (env : Env) (st : ExecState) (ev : LiqEvent) (inst : Instrument),
      env.insts ev.symbol = some inst →
      isBlocked inst = false →
      env.lowVolume = false →
      ¬ st.initialBalance ≤ 0 →
      placeEntryOrder cfg env = .placed →
      ¬ roundQty inst (max (cfg.positionSizeUsd * cfg.leverage)
          (st.initialBalance * (cfg.minPositionPct / 100)) * DCA_SPLITS.getD 0 0 / ev.price)
        < inst.minQty →
      ∃ p st2, executeTradeBody cfg env st ev = (.filled p, st2) ∧
        st2.activePositions =
          (if 1 < (setPos st.activePositions ev.symbol p).length then
            tightenAllSLs cfg env.insts env.tightenOk st.initialBalance
              (setPos st.activePositions ev.symbol p).length
              (setPos st.activePositions ev.symbol p)
          else setPos st.activePositions ev.symbol p)) ∧
    (∀ (cfg : Config) (insts : String → Option Instrument) (ok : String → Bool)
       (bal : ℚ) (n : ℕ) (sym : String) (pos : Position) (inst : Instrument) (newSL : ℚ),
      insts sym = some inst →
      newSL = (if pos.side = "Buy"
        then roundPrice inst (pos.entryPrice - tightenSlOffset cfg inst bal n pos)
        else roundPrice inst (pos.entryPrice + tightenSlOffset cfg inst bal n pos)) →
      (pos.slPrice = some newSL → tightenOne cfg insts ok bal n (sym, pos) = (sym, pos)) ∧
      (pos.slPrice ≠ some newSL → ok sym = true →
        (tightenOne cfg insts ok bal n (sym, pos)).2.slPrice = some newSL) ∧
      (pos.slPrice ≠ some newSL → ok sym = false →
        tightenOne cfg insts ok bal n (sym, pos) = (sym, pos))) ∧
    (∀ (cfg : Config) (insts : String → Option Instrument) (ok : String → Bool)
       (bal : ℚ) (n : ℕ) (m : List (String × Position)),
      tightenAllSLs cfg insts ok bal n m = m.map (tightenOne cfg insts ok bal n)) := by
  refine ⟨?_, ?_, fun _ _ _ _ _ _ => rfl⟩
  · intro cfg env st ev inst hinst hblk hlv hbal hord hqty
    obtain ⟨p, st2, heq, _, _, _, _, _, hap⟩ :=
      executeTradeBody_filled_spec cfg env st ev inst hinst hblk hlv hbal hord hqty
    exact ⟨p, st2, heq, hap⟩
  · intro cfg insts ok bal n sym pos inst newSL hinst hnew
    subst hnew
    unfold tightenOne
    rw [hinst]
    simp only []
    refine ⟨?_, ?_, ?_⟩
    · intro heq
      rw [if_pos heq]
    · intro hne hok
      rw [if_neg hne, if_pos hok]
    · intro hne hok
      rw [if_neg hne, if_neg (by simp [hok])]

/-- Witness for C9 (amended): the stored stop 90 differs from the
recomputed 97.5 and the successful `setTradingStop` updates it. -/
theorem c9_shared_risk_tightening_witness :
    ledgerPosA.slPrice ≠ some ((195 : ℚ)/2) ∧
    (tightenOne sampleCfg (fun _ => some sampleInst) (fun _ => true) 100 2
        ("AAA", ledgerPosA)).2.slPrice = some ((195 : ℚ)/2) := by
  have hnew : ((195 : ℚ)/2) = (if ledgerPosA.side = "Buy"
      then roundPrice sampleInst (ledgerPosA.entryPrice -
        tightenSlOffset sampleCfg sampleInst 100 2 ledgerPosA)
      else roundPrice sampleInst (ledgerPosA.entryPrice +
        tightenSlOffset sampleCfg sampleInst 100 2 ledgerPosA)) := by
    norm_num [ledgerPosA, roundPrice, tightenSlOffset, clampSlOffset,
      getMaxLossPerPosition, roundQty, sampleCfg, sampleInst]
  have hne : ledgerPosA.slPrice ≠ some ((195 : ℚ)/2) := by norm_num [ledgerPosA]
  exact ⟨hne, (c9_shared_risk_tightening.2.1 sampleCfg (fun _ => some sampleInst)
    (fun _ => true) 100 2 "AAA" ledgerPosA sampleInst ((195 : ℚ)/2) rfl hnew).2.1 hne rfl⟩
